import Mathlib

/-!
Verification development for the quiz_calendar repository (a Telegram
meeting-scheduler bot plus a FastAPI gateway sharing one SQLite store).

The Python sources (`bot.py`, `server.py`, `core.py`, `db_schema.py`) are
shallowly embedded below: SQLite tables become Lean lists of rows, request
handlers and bot flows become pure functions from a database state (plus the
request arguments) to a result and a new database state, and the HMAC-SHA256
signature scheme is implemented bit-for-bit so that concrete signatures can
be evaluated inside proofs.  Datetimes are modelled as integer timestamps
(seconds); the ISO strings stored by the code compare consistently with
their underlying instants, so `≤` on the integers models both the SQL text
comparison on `run_at_iso` and Python `datetime` comparison.
-/

set_option maxRecDepth 16384

namespace QuizCal

/-! ## Bytes and UTF-8 -/

/-- UTF-8 encoding of a single character, as a list of byte values.
Mirrors Python's `str.encode("utf-8")` character by character. -/
def utf8Bytes (c : Char) : List Nat :=
  let n := c.toNat
  if n < 0x80 then [n]
  else if n < 0x800 then [0xc0 + n / 64, 0x80 + n % 64]
  else if n < 0x10000 then [0xe0 + n / 4096, 0x80 + n / 64 % 64, 0x80 + n % 64]
  else [0xf0 + n / 262144, 0x80 + n / 4096 % 64, 0x80 + n / 64 % 64, 0x80 + n % 64]

/-- Byte encoding of a string (Python `s.encode("utf-8")`). -/
def strBytes (s : String) : List Nat :=
  s.data.flatMap utf8Bytes

/-! ## SHA-256 (FIPS 180-4), executable on lists of byte values -/

/-- Right rotation of a 32-bit word. -/
def rotr (n x : Nat) : Nat :=
  ((x >>> n) ||| (x <<< (32 - n))) % 2 ^ 32

/-- Round constants. -/
def sha256K : List Nat :=
  [1116352408, 1899447441, 3049323471, 3921009573, 961987163, 1508970993,
   2453635748, 2870763221, 3624381080, 310598401, 607225278, 1426881987,
   1925078388, 2162078206, 2614888103, 3248222580, 3835390401, 4022224774,
   264347078, 604807628, 770255983, 1249150122, 1555081692, 1996064986,
   2554220882, 2821834349, 2952996808, 3210313671, 3336571891, 3584528711,
   113926993, 338241895, 666307205, 773529912, 1294757372, 1396182291,
   1695183700, 1986661051, 2177026350, 2456956037, 2730485921, 2820302411,
   3259730800, 3345764771, 3516065817, 3600352804, 4094571909, 275423344,
   430227734, 506948616, 659060556, 883997877, 958139571, 1322822218,
   1537002063, 1747873779, 1955562222, 2024104815, 2227730452, 2361852424,
   2428436474, 2756734187, 3204031479, 3329325298]

/-- Initial hash state. -/
def sha256Init : List Nat :=
  [1779033703, 3144134277, 1013904242, 2773480762,
   1359893119, 2600822924, 528734635, 1541459225]

/-- Append the `0x80` marker, zero padding, and the 64-bit big-endian bit
length so the total length is a multiple of 64 bytes. -/
def sha256Pad (msg : List Nat) : List Nat :=
  let bitLen := msg.length * 8
  let z := (64 + 55 - (msg.length % 64)) % 64
  msg ++ [0x80] ++ List.replicate z 0 ++
    [bitLen >>> 56 % 256, bitLen >>> 48 % 256, bitLen >>> 40 % 256,
     bitLen >>> 32 % 256, bitLen >>> 24 % 256, bitLen >>> 16 % 256,
     bitLen >>> 8 % 256, bitLen % 256]

/-- Split a byte list into 64-byte chunks (fuel-driven so recursion is
structural). -/
def chunk64 : Nat → List Nat → List (List Nat)
  | 0, _ => []
  | _, [] => []
  | fuel + 1, l => l.take 64 :: chunk64 fuel (l.drop 64)

/-- Big-endian 32-bit words from bytes. -/
def bytesToWords : List Nat → List Nat
  | a :: b :: c :: d :: rest =>
      (a * 16777216 + b * 65536 + c * 256 + d) :: bytesToWords rest
  | _ => []

/-- Big-endian bytes from 32-bit words. -/
def wordsToBytes (ws : List Nat) : List Nat :=
  ws.flatMap fun w => [w >>> 24 % 256, w >>> 16 % 256, w >>> 8 % 256, w % 256]

/-- Message-schedule sigma functions. -/
def ssig0 (x : Nat) : Nat := (rotr 7 x) ^^^ (rotr 18 x) ^^^ (x >>> 3)

/-- Second message-schedule sigma function. -/
def ssig1 (x : Nat) : Nat := (rotr 17 x) ^^^ (rotr 19 x) ^^^ (x >>> 10)

/-- Extend the 16 message words to 64 (adding `n` new words). -/
def extendW (w : List Nat) : Nat → List Nat
  | 0 => w
  | n + 1 =>
      let w' := extendW w n
      let i := w'.length
      w' ++ [(ssig1 (w'.getD (i - 2) 0) + w'.getD (i - 7) 0 +
              ssig0 (w'.getD (i - 15) 0) + w'.getD (i - 16) 0) % 2 ^ 32]

/-- One compression round; the state is the 8-word working vector and `wk`
packs the schedule word with the round constant. -/
def sha256Round (st : List Nat) (wk : Nat × Nat) : List Nat :=
  match st with
  | [a, b, c, d, e, f, g, h] =>
      let s1 := (rotr 6 e) ^^^ (rotr 11 e) ^^^ (rotr 25 e)
      let ch := (e &&& f) ^^^ ((e ^^^ 0xffffffff) &&& g)
      let t1 := (h + s1 + ch + wk.2 + wk.1) % 2 ^ 32
      let s0 := (rotr 2 a) ^^^ (rotr 13 a) ^^^ (rotr 22 a)
      let mj := (a &&& b) ^^^ (a &&& c) ^^^ (b &&& c)
      let t2 := (s0 + mj) % 2 ^ 32
      [(t1 + t2) % 2 ^ 32, a, b, c, (d + t1) % 2 ^ 32, e, f, g]
  | _ => st

/-- Compress one 64-byte block into the running hash state. -/
def sha256Block (h0 : List Nat) (block : List Nat) : List Nat :=
  let w := extendW (bytesToWords block) 48
  let st := (w.zip sha256K).foldl sha256Round h0
  (h0.zip st).map fun p => (p.1 + p.2) % 2 ^ 32

/-- SHA-256 digest (32 bytes) of a byte list. -/
def sha256 (msg : List Nat) : List Nat :=
  let padded := sha256Pad msg
  wordsToBytes ((chunk64 padded.length padded).foldl sha256Block sha256Init)

/-- HMAC-SHA256 (RFC 2104) over byte lists. -/
def hmacSha256 (key msg : List Nat) : List Nat :=
  let k0 := if 64 < key.length then sha256 key else key
  let k := k0 ++ List.replicate (64 - k0.length) 0
  sha256 ((k.map (· ^^^ 0x5c)) ++ sha256 ((k.map (· ^^^ 0x36)) ++ msg))

/-- Lowercase hex digit. -/
def hexDigit (n : Nat) : Char :=
  if n < 10 then Char.ofNat (48 + n) else Char.ofNat (87 + n)

/-- Lowercase hex rendering of a byte list (Python `hexdigest()`). -/
def bytesToHex (bs : List Nat) : String :=
  String.mk (bs.flatMap fun b => [hexDigit (b / 16 % 16), hexDigit (b % 16)])

/-- Sanity check: SHA-256 of the empty message matches the published value. -/
theorem sha256_empty_ok :
    bytesToHex (sha256 []) =
      "e3b0c44298fc1c149afbf4c8996fb92427ae41e4649b934ca495991b7852b855" := by
  decide

/-- Sanity check: HMAC-SHA256 test vector 2 from RFC 4231. -/
theorem hmac_rfc4231_ok :
    bytesToHex (hmacSha256 (strBytes "Jefe")
        (strBytes "what do ya want for nothing?")) =
      "5bdcc146bf60754e6a042426089575c75a003f089d2739839dec58b964ec3843" := by
  decide

/-! ## Capability signatures (`core.py` / `bot.py` / `server.py`)

`make_chat_sig` and `make_user_sig` in `bot.py`/`core.py` are byte-for-byte
identical to `_chat_sig_expected` and `_user_sig_expected` in `server.py`;
one definition embeds both. -/

/-- Chat-scope capability token: HMAC-SHA256 keyed by SHA-256 of the bot
token over the decimal chat id, truncated to 20 hex characters. -/
def make_chat_sig (botToken : String) (chat_id : Int) : String :=
  (bytesToHex (hmacSha256 (sha256 (strBytes botToken))
    (strBytes (toString chat_id)))).take 20

/-- User-scope capability token: full-length HMAC-SHA256 keyed by SHA-256 of
the bot token over `"chatId:userId"`. -/
def make_user_sig (botToken : String) (chat_id user_id : Int) : String :=
  bytesToHex (hmacSha256 (sha256 (strBytes botToken))
    (strBytes (toString chat_id ++ ":" ++ toString user_id)))

/-! ## Query-string parsing (`urllib.parse.parse_qs` with `strict_parsing`)

Percent-decoding is modelled byte-wise: code points below `0x80` agree with
the source; multi-byte UTF-8 percent sequences are not reassembled (none of
the payloads the handlers inspect rely on them). -/

/-- Numeric value of a hex digit character, if any. -/
def hexVal (c : Char) : Option Nat :=
  if '0' ≤ c ∧ c ≤ '9' then some (c.toNat - 48)
  else if 'a' ≤ c ∧ c ≤ 'f' then some (c.toNat - 87)
  else if 'A' ≤ c ∧ c ≤ 'F' then some (c.toNat - 55)
  else none

/-- Python `unquote(s.replace('+', ' '))` as performed by `parse_qsl`:
literal `+` becomes a space and `%XX` hex escapes are decoded; a `%` not
followed by two hex digits is kept verbatim. -/
def unquotePlus : List Char → List Char
  | [] => []
  | '%' :: a :: b :: rest =>
      match hexVal a, hexVal b with
      | some x, some y => Char.ofNat (16 * x + y) :: unquotePlus rest
      | _, _ => '%' :: unquotePlus (a :: b :: rest)
  | '+' :: rest => ' ' :: unquotePlus rest
  | c :: rest => c :: unquotePlus rest

/-- Split a segment at its first `=`, as Python `name_value.split('=', 1)`. -/
def breakEq : List Char → Option (List Char × List Char)
  | [] => none
  | '=' :: rest => some ([], rest)
  | c :: rest => (breakEq rest).map fun p => (c :: p.1, p.2)

/-- Decode one `name=value` query segment.  Under `strict_parsing=True` a
segment without `=` (including an empty segment) raises `ValueError`, here
`none`; a segment with an empty value is silently dropped
(`keep_blank_values` is left at `False`), here `some none`. -/
def parseSegment (seg : String) : Option (Option (String × String)) :=
  match breakEq seg.data with
  | none => none
  | some (n, v) =>
      if v.isEmpty then some none
      else some (some (String.mk (unquotePlus n), String.mk (unquotePlus v)))

/-- Split a character list at every occurrence of the separator, keeping
empty segments (Python `str.split` with an explicit separator). -/
def splitChar (c : Char) : List Char → List (List Char)
  | [] => [[]]
  | x :: rest =>
      let r := splitChar c rest
      if x = c then [] :: r
      else
        match r with
        | [] => [[x]]
        | h :: t => (x :: h) :: t

/-- Python `urllib.parse.parse_qsl(qs, strict_parsing=True)`: split on `&`,
decode each segment, fail if any segment is malformed. -/
def parse_qsl (qs : String) : Option (List (String × String)) :=
  ((splitChar '&' qs.data).map String.mk).foldr
    (fun seg acc =>
      match parseSegment seg, acc with
      | some r, some tl => some (r.toList ++ tl)
      | _, _ => none)
    (some [])

/-- First value recorded for a key (`parsed[k][0]` on the `parse_qs` dict). -/
def qsFirst (pairs : List (String × String)) (k : String) : Option String :=
  (pairs.find? fun p => p.1 == k).map Prod.snd

/-- Code-point lexicographic comparison of character lists (the order
Python's string `sort` uses). -/
def charListLe : List Char → List Char → Bool
  | [], _ => true
  | a :: as, bs =>
      match bs with
      | [] => false
      | b :: brest =>
          if a.toNat < b.toNat then true
          else if b.toNat < a.toNat then false
          else charListLe as brest

/-- Code-point lexicographic comparison of strings. -/
def strLeb (a b : String) : Bool := charListLe a.data b.data

/-- The distinct keys of the parsed query, sorted by code point as Python
`sorted(parsed.keys())` sorts strings. -/
def qsSortedKeys (pairs : List (String × String)) : List String :=
  ((pairs.map Prod.fst).dedup).insertionSort (fun a b => strLeb a b = true)

/-! ## Minimal JSON (models `json.loads` for the payloads at hand)

Number support is restricted to integers: the only numeric field the
handlers consume is `user.id`, which the source immediately passes to
`int(...)`. -/

/-- JSON values. -/
inductive Json where
  | null : Json
  | bool (b : Bool) : Json
  | num (n : Int) : Json
  | str (s : String) : Json
  | arr (xs : List Json) : Json
  | obj (fields : List (String × Json)) : Json

/-- Skip JSON whitespace. -/
def jsonWs : List Char → List Char
  | ' ' :: rest => jsonWs rest
  | '\t' :: rest => jsonWs rest
  | '\n' :: rest => jsonWs rest
  | '\r' :: rest => jsonWs rest
  | l => l

/-- Parse the body of a JSON string literal up to the closing quote,
handling the single-character escapes; `\u` escapes are not modelled. -/
def jsonStr : Nat → List Char → Option (List Char × List Char)
  | 0, _ => none
  | _, [] => none
  | fuel + 1, c :: rest =>
      match c, rest with
      | '"', _ => some ([], rest)
      | '\\', e :: rest' =>
          let dec : Option Char :=
            if e = '"' ∨ e = '\\' ∨ e = '/' then some e
            else if e = 'n' then some '\n'
            else if e = 't' then some '\t'
            else if e = 'r' then some '\r'
            else none
          match dec with
          | some d => (jsonStr fuel rest').map fun p => (d :: p.1, p.2)
          | none => none
      | '\\', [] => none
      | c', _ => (jsonStr fuel rest).map fun p => (c' :: p.1, p.2)

/-- Parse a run of decimal digits. -/
def jsonDigits : List Char → List Char × List Char
  | [] => ([], [])
  | c :: rest =>
      if '0' ≤ c ∧ c ≤ '9' then
        let p := jsonDigits rest
        (c :: p.1, p.2)
      else ([], c :: rest)

/-- Digits to a natural number. -/
def digitsToNat (ds : List Char) : Nat :=
  ds.foldl (fun acc c => acc * 10 + (c.toNat - 48)) 0

mutual

/-- Parse one JSON value (fuel-driven recursive descent). -/
def jsonVal : Nat → List Char → Option (Json × List Char)
  | 0, _ => none
  | fuel + 1, l =>
      match jsonWs l with
      | '{' :: rest => jsonObj fuel (jsonWs rest) []
      | '[' :: rest => jsonArr fuel (jsonWs rest) []
      | '"' :: rest => (jsonStr (fuel + 1) rest).map fun p => (.str (String.mk p.1), p.2)
      | 't' :: 'r' :: 'u' :: 'e' :: rest => some (.bool true, rest)
      | 'f' :: 'a' :: 'l' :: 's' :: 'e' :: rest => some (.bool false, rest)
      | 'n' :: 'u' :: 'l' :: 'l' :: rest => some (.null, rest)
      | '-' :: rest =>
          match jsonDigits rest with
          | ([], _) => none
          | (ds, rest') => some (.num (-(digitsToNat ds : Int)), rest')
      | l' =>
          match jsonDigits l' with
          | ([], _) => none
          | (ds, rest') => some (.num (digitsToNat ds : Int), rest')

/-- Parse the members of an object after `{`. -/
def jsonObj : Nat → List Char → List (String × Json) → Option (Json × List Char)
  | 0, _, _ => none
  | _ + 1, '}' :: rest, acc => some (.obj acc.reverse, rest)
  | fuel + 1, '"' :: rest, acc =>
      match jsonStr (fuel + 1) rest with
      | none => none
      | some (k, rest') =>
          match jsonWs rest' with
          | ':' :: rest'' =>
              match jsonVal fuel rest'' with
              | none => none
              | some (v, rest3) =>
                  match jsonWs rest3 with
                  | ',' :: rest4 => jsonObj fuel (jsonWs rest4) ((String.mk k, v) :: acc)
                  | '}' :: rest4 => some (.obj (((String.mk k, v) :: acc).reverse), rest4)
                  | _ => none
          | _ => none
  | _, _, _ => none

/-- Parse the elements of an array after `[`. -/
def jsonArr : Nat → List Char → List Json → Option (Json × List Char)
  | 0, _, _ => none
  | _ + 1, ']' :: rest, acc => some (.arr acc.reverse, rest)
  | fuel + 1, l, acc =>
      match jsonVal fuel l with
      | none => none
      | some (v, rest) =>
          match jsonWs rest with
          | ',' :: rest' => jsonArr fuel (jsonWs rest') (v :: acc)
          | ']' :: rest' => some (.arr ((v :: acc).reverse), rest')
          | _ => none

end

/-- Python `json.loads`: the whole input must be consumed (up to trailing
whitespace). -/
def jsonParse (s : String) : Option Json :=
  match jsonVal (s.length + 1) s.data with
  | some (v, rest) => if jsonWs rest = [] then some v else none
  | none => none

/-- Contiguous-substring test over character lists. -/
def charsInfix (needle : List Char) : List Char → Bool
  | [] => needle.isEmpty
  | c :: rest => needle.isPrefixOf (c :: rest) || charsInfix needle rest

/-- Python's membership test `"id" in user` from the verifier: defined on
objects (key lookup), strings (substring) and arrays (element equality);
on numbers, booleans and `None` the source raises `TypeError`, modelled as
`none`. -/
def jsonHasId : Json → Option Bool
  | .obj fields => some (fields.any fun f => f.1 == "id")
  | .str s => some (charsInfix "id".data s.data)
  | .arr xs => some (xs.any fun x =>
      match x with
      | .str s => s == "id"
      | _ => false)
  | _ => none

/-- Python `int(s)` on a decimal string (optional sign, digits). -/
def parseIntStr (s : String) : Option Int :=
  match s.data with
  | '-' :: ds => if ds ≠ [] ∧ ds.all (fun c => '0' ≤ c ∧ c ≤ '9') then
      some (-(digitsToNat ds : Int)) else none
  | '+' :: ds => if ds ≠ [] ∧ ds.all (fun c => '0' ≤ c ∧ c ≤ '9') then
      some (digitsToNat ds : Int) else none
  | ds => if ds ≠ [] ∧ ds.all (fun c => '0' ≤ c ∧ c ≤ '9') then
      some (digitsToNat ds : Int) else none

/-- The call sites' `int(auth["user"]["id"])`: `none` models the uncaught
`TypeError`/`ValueError` (a 500 in the source). -/
def jsonGetId : Json → Option Int
  | .obj fields =>
      match (fields.find? fun f => f.1 == "id").map Prod.snd with
      | some (.num n) => some n
      | some (.str s) => parseIntStr s
      | _ => none
  | _ => none

/-! ## The platform-signed launch-context verifier (`server.py` lines 93-133) -/

/-- HTTP error outcome (`HTTPException(code, msg)`). -/
structure HErr where
  code : Nat
  msg : String
deriving DecidableEq, Repr

/-- The data-check string the source signs: the parsed pairs minus `hash`,
keys sorted, each rendered `k=v` with the first value recorded for the key,
joined by NEWLINE characters. -/
def dataCheckString (pairs : List (String × String)) : String :=
  String.intercalate "\n"
    (((qsSortedKeys pairs).filter fun k => k ≠ "hash").map
      fun k => k ++ "=" ++ (qsFirst pairs k).getD "")

/-- Embedding of `telegram_webapp_verify_initdata`: parse the query string
strictly, require a `hash` field, recompute the HMAC keyed by
`HMAC("WebAppData", botToken)` over the newline-joined sorted pairs, demand
exact equality, then require a JSON `user` carrying an `id`. -/
def telegram_webapp_verify_initdata (botToken init_data : String) :
    Except HErr Json :=
  if init_data = "" then .error ⟨401, "Missing initData"⟩
  else
    match parse_qsl init_data with
    | none => .error ⟨401, "Bad initData format"⟩
    | some pairs =>
        match qsFirst pairs "hash" with
        | none => .error ⟨401, "No hash in initData"⟩
        | some received_hash =>
            let secret_key := hmacSha256 (strBytes "WebAppData") (strBytes botToken)
            let computed_hash :=
              bytesToHex (hmacSha256 secret_key (strBytes (dataCheckString pairs)))
            if computed_hash = received_hash then
              match qsFirst pairs "user" with
              | none => .error ⟨401, "No user in initData"⟩
              | some user_json =>
                  if user_json = "" then .error ⟨401, "No user in initData"⟩
                  else
                    match jsonParse user_json with
                    | none => .error ⟨401, "Bad user JSON in initData"⟩
                    | some user =>
                        match jsonHasId user with
                        | none => .error ⟨500, "TypeError"⟩
                        | some false => .error ⟨401, "No user.id in initData"⟩
                        | some true => .ok user
            else .error ⟨401, "Bad initData hash"⟩

/-! ## The store (`db_schema.py` tables as lists of rows)

SQLite `AUTOINCREMENT` on `reminders.id` is modelled by the
`next_reminder_id` counter: ids are handed out increasingly and never
reused, exactly the property `AUTOINCREMENT` guarantees. -/

/-- Row of the `events` table. -/
structure EventRow where
  id : Nat
  chat_id : Int
  poll_id : String
  poll_message_id : Nat
  card_message_id : Option Nat
  creator_user_id : Option Int
  dt : Int
  title : String
  cost : String
  location : String
  details : String
  created_at : Int
deriving DecidableEq, Repr

/-- Row of the `votes` table (primary key `(poll_id, user_id)`). -/
structure VoteRow where
  poll_id : String
  user_id : Int
  option_id : Option Int
  updated_at : Int
deriving DecidableEq, Repr

/-- Row of the `users` table. -/
structure UserRow where
  user_id : Int
  username : Option String
  first_name : Option String
  last_name : Option String
  updated_at : Int
deriving DecidableEq, Repr

/-- Row of the `reminders` table (unique on `(event_id, kind)`). -/
structure ReminderRow where
  id : Nat
  event_id : Nat
  kind : String
  run_at : Int
  sent : Bool
  sent_at : Option Int
deriving DecidableEq, Repr

/-- The whole store. -/
structure Db where
  events : List EventRow
  votes : List VoteRow
  users : List UserRow
  reminders : List ReminderRow
  next_reminder_id : Nat
deriving DecidableEq, Repr

/-- Poll options (`OPTIONS` indices in `bot.py`). -/
def OPT_YES : Int := 0

/-- Index of the "need to think" option. -/
def OPT_MAYBE : Int := 1

/-- Index of the "cannot come" option. -/
def OPT_NO : Int := 2

/-- Long-lead reminder kind. -/
def REM_36H : String := "maybe_36h"

/-- Short-lead reminder kind. -/
def REM_3H : String := "yes_3h"

/-! ## Reminder store operations (`bot.py` lines 229-272) -/

/-- `INSERT OR IGNORE INTO reminders(...)`: skipped when a row with the same
`(event_id, kind)` already exists, otherwise appended with a fresh id and
`sent = 0`. -/
def insertReminderIgnore (db : Db) (event_id : Nat) (kind : String)
    (run_at : Int) : Db :=
  if db.reminders.any fun r => r.event_id == event_id && r.kind == kind then db
  else
    { db with
      reminders := db.reminders ++
        [⟨db.next_reminder_id, event_id, kind, run_at, false, none⟩],
      next_reminder_id := db.next_reminder_id + 1 }

/-- `create_or_replace_reminders`: delete every reminder of the event, then
insert the 36-hour and 3-hour deadlines only when they are still strictly in
the future. -/
def create_or_replace_reminders (db : Db) (event_id : Nat) (dt now : Int) : Db :=
  let db1 := { db with
    reminders := db.reminders.filter fun r => r.event_id != event_id }
  let db2 :=
    if now < dt - 36 * 3600 then
      insertReminderIgnore db1 event_id REM_36H (dt - 36 * 3600)
    else db1
  if now < dt - 3 * 3600 then
    insertReminderIgnore db2 event_id REM_3H (dt - 3 * 3600)
  else db2

/-- Ordering of reminders by fire-at instant. -/
def remLe (a b : ReminderRow) : Prop := a.run_at ≤ b.run_at

instance : DecidableRel remLe :=
  fun a b => inferInstanceAs (Decidable (a.run_at ≤ b.run_at))

instance : IsTotal ReminderRow remLe := ⟨fun a b => le_total a.run_at b.run_at⟩

instance : IsTrans ReminderRow remLe :=
  ⟨fun _ _ _ h h' => le_trans h h'⟩

/-- `get_due_reminders`: `SELECT ... WHERE sent=0 AND run_at_iso<=now ORDER
BY run_at_iso ASC`. -/
def get_due_reminders (db : Db) (now : Int) : List ReminderRow :=
  (db.reminders.filter fun r => !r.sent && decide (r.run_at ≤ now)).insertionSort remLe

/-- `mark_reminder_sent`: `UPDATE reminders SET sent=1, sent_at_iso=now
WHERE id=?`. -/
def mark_reminder_sent (db : Db) (reminder_id : Nat) (now : Int) : Db :=
  { db with
    reminders := db.reminders.map fun r =>
      if r.id == reminder_id then { r with sent := true, sent_at := some now }
      else r }

/-- `get_users_by_choice`: votes for the poll with the given option, left
joined with the `users` table. -/
def get_users_by_choice (db : Db) (poll_id : String) (option_id : Int) :
    List (Int × Option UserRow) :=
  (db.votes.filter fun v => v.poll_id == poll_id && v.option_id == some option_id).map
    fun v => (v.user_id, db.users.find? fun u => u.user_id == v.user_id)

/-! ## The vote ledger (`on_poll_answer`, `bot.py` lines 668-699) -/

/-- Inbound poll-answer sender. -/
structure TgUser where
  id : Int
  username : Option String
  first_name : Option String
  last_name : Option String
deriving DecidableEq, Repr

/-- `INSERT INTO votes ... ON CONFLICT(poll_id, user_id) DO UPDATE SET
option_id=excluded.option_id, updated_at_iso=excluded.updated_at_iso`. -/
def upsertVote (votes : List VoteRow) (p : String) (u : Int)
    (opt : Option Int) (now : Int) : List VoteRow :=
  if votes.any fun v => v.poll_id == p && v.user_id == u then
    votes.map fun v =>
      if v.poll_id == p && v.user_id == u then
        { v with option_id := opt, updated_at := now }
      else v
  else votes ++ [⟨p, u, opt, now⟩]

/-- `INSERT INTO users ... ON CONFLICT(user_id) DO UPDATE SET ...`. -/
def upsertUser (users : List UserRow) (u : TgUser) (now : Int) : List UserRow :=
  if users.any fun r => r.user_id == u.id then
    users.map fun r =>
      if r.user_id == u.id then
        ⟨u.id, u.username, u.first_name, u.last_name, now⟩
      else r
  else users ++ [⟨u.id, u.username, u.first_name, u.last_name, now⟩]

/-- `on_poll_answer`: keep only answers whose poll id belongs to a stored
event; record the first chosen option (`None` when the answer is a
retraction) and refresh the sender's profile row. -/
def on_poll_answer (db : Db) (poll_id : String) (user : TgUser)
    (option_ids : List Int) (now : Int) : Db :=
  let option_id : Option Int := option_ids.head?
  if db.events.any fun e => e.poll_id == poll_id then
    { db with
      votes := upsertVote db.votes poll_id user.id option_id now,
      users := upsertUser db.users user now }
  else db

/-! ## The scheduler loop body (`reminders_worker`, `bot.py` lines 288-359)

The Notifier (`bot.send_message`) is an external collaborator; it is
abstracted as a function from the destination chat id to success or an
exception.  The rendered message text does not influence any control flow
in the worker, so it is elided from the abstraction.  The `try`/`except`
in the source wraps the whole cycle, and the SQLite connection commits only
at the end of the cycle: an exception therefore closes the connection with
the transaction uncommitted and every change of the cycle is rolled back,
which `runCycle` models by returning the original store. -/

/-- Handle one due reminder inside the cycle: resolve the parent event
(an orphan is marked sent with no notification), pick the recipient set for
the reminder's kind, dispatch one message when the set is non-empty, then
mark the reminder sent.  A Notifier exception aborts with `.error`. -/
def processOne (send : Int → Except Unit Unit) (now : Int) (db : Db)
    (r : ReminderRow) : Except Unit Db :=
  match db.events.find? fun e => e.id == r.event_id with
  | none => .ok (mark_reminder_sent db r.id now)
  | some e =>
      let attempt : Except Unit Unit :=
        if r.kind = REM_36H then
          if get_users_by_choice db e.poll_id OPT_MAYBE ≠ [] then send e.chat_id
          else .ok ()
        else if r.kind = REM_3H then
          if get_users_by_choice db e.poll_id OPT_YES ≠ [] then send e.chat_id
          else .ok ()
        else .ok ()
      match attempt with
      | .error u => .error u
      | .ok _ => .ok (mark_reminder_sent db r.id now)

/-- One cycle of the worker up to the `db.commit()`: fetch the due
reminders once, then process them in fire-at order. -/
def cycleBody (send : Int → Except Unit Unit) (db : Db) (now : Int) :
    Except Unit Db :=
  (get_due_reminders db now).foldlM (fun d r => processOne send now d r) db

/-- One cycle of the worker as observed after the `except Exception` /
rollback: on success the cycle's changes are committed, on an exception the
store is unchanged (the error is logged and the loop sleeps). -/
def runCycle (send : Int → Except Unit Unit) (db : Db) (now : Int) : Db :=
  match cycleBody send db now with
  | .ok db' => db'
  | .error _ => db

/-! ## Bot-side event deletion (`delete_event`, `bot.py` lines 361-388) -/

/-- `delete_event`: reject only when a recorded creator differs from the
actor; cascade-delete reminders, votes and the event row otherwise.  The
returned string is the user-visible outcome message of the source. -/
def delete_event (db : Db) (event_id : Nat) (actor_user_id : Int) :
    String × Db :=
  match db.events.find? fun e => e.id == event_id with
  | none => ("Событие не найдено.", db)
  | some e =>
      if e.creator_user_id.any (fun c => c != actor_user_id) then
        ("Удалить может только создатель события.", db)
      else
        ("Удалено ✅",
          { db with
            reminders := db.reminders.filter fun r => r.event_id != event_id,
            votes := db.votes.filter fun v => v.poll_id != e.poll_id,
            events := db.events.filter fun e' => e'.id != event_id })

/-! ## Bot-side post-edit refresh (`on_webapp_data` action `edited_via_api`,
`bot.py` lines 480-517): re-derive the reminders from the stored (already
updated) start time; the card edit and the calendar-file send go to the
Notifier and do not touch the store. -/

/-- Reminder refresh performed by the `edited_via_api` flow. -/
def edited_via_api (db : Db) (event_id : Nat) (now : Int) : Db :=
  match db.events.find? fun e => e.id == event_id with
  | none => db
  | some e => create_or_replace_reminders db event_id e.dt now

/-! ## HTTP handlers (`server.py`)

Handlers return the response (or `HTTPException`) together with the
resulting store; every rejection path of the source raises before any SQL
write, which the embedding reflects by pairing errors with the unchanged
store. -/

/-- Response shape of `GET /api/event/{id}`. -/
structure EventView where
  id : Nat
  chat_id : Int
  dt : Int
  title : String
  cost : String
  location : String
  details : String
deriving DecidableEq, Repr

/-- `api_get_event` (`server.py` lines 224-245): fetch by id; the handler
declares no signature or identity parameter at all. -/
def api_get_event (db : Db) (event_id : Nat) : Except HErr EventView :=
  match db.events.find? fun e => e.id == event_id with
  | none => .error ⟨404, "event not found"⟩
  | some e => .ok ⟨e.id, e.chat_id, e.dt, e.title, e.cost, e.location, e.details⟩

/-- Body of `PUT /api/event/{id}`.  `dt` is the parsed `patch.dt_iso`:
`none` models a string that fails `datetime.fromisoformat` or lacks an
offset, which the source turns into a 400. -/
structure EventPatch where
  dt : Option Int
  title : String
  cost : String
  location : String
  details : Option String
deriving DecidableEq, Repr

/-- Identity resolution shared verbatim by the update and delete handlers:
a non-empty signed launch context wins (and its verification failures
propagate); otherwise an explicit id is adopted unverified at this point
whenever a non-empty `user_sig` accompanies it (it is checked only later,
against the event's chat). -/
def resolveIdentity (botToken : String) (user_id : Option Int)
    (user_sig : Option String) (x_init : String) : Except HErr (Option Int) :=
  if x_init ≠ "" then
    match telegram_webapp_verify_initdata botToken x_init with
    | .error e => .error e
    | .ok user =>
        match jsonGetId user with
        | none => .error ⟨500, "TypeError"⟩
        | some uid => .ok (some uid)
  else
    match user_id, user_sig with
    | some uid, some s => if s ≠ "" then .ok (some uid) else .ok none
    | _, _ => .ok none

/-- `api_update_event` (`server.py` lines 248-302).  Note that the handler
updates only the `events` row: it never touches the `reminders` table. -/
def api_update_event (botToken : String) (db : Db) (event_id : Nat)
    (patch : EventPatch) (user_id : Option Int) (user_sig : Option String)
    (x_init : String) : Except HErr Unit × Db :=
  match resolveIdentity botToken user_id user_sig x_init with
  | .error e => (.error e, db)
  | .ok user_id_final =>
      match patch.dt with
      | none => (.error ⟨400, "dt_iso must be ISO with timezone"⟩, db)
      | some newDt =>
          match db.events.find? fun e => e.id == event_id with
          | none => (.error ⟨404, "event not found"⟩, db)
          | some e =>
              if e.creator_user_id = none then (.error ⟨403, "not allowed"⟩, db)
              else
                match user_id_final with
                | none => (.error ⟨401, "Missing initData or user signature"⟩, db)
                | some uid =>
                    if x_init = "" ∧ (user_sig.getD "") ≠ "" ∧
                        (user_sig.getD "") ≠ make_user_sig botToken e.chat_id uid then
                      (.error ⟨403, "bad user signature"⟩, db)
                    else if e.creator_user_id ≠ some uid then
                      (.error ⟨403, "not allowed"⟩, db)
                    else
                      (.ok (),
                        { db with
                          events := db.events.map fun e' =>
                            if e'.id == event_id then
                              { e' with
                                dt := newDt, title := patch.title,
                                cost := patch.cost, location := patch.location,
                                details := patch.details.getD "" }
                            else e' })

/-- `api_delete_event` (`server.py` lines 305-351): same identity and
ownership gate as the update handler, then cascade delete. -/
def api_delete_event (botToken : String) (db : Db) (event_id : Nat)
    (user_id : Option Int) (user_sig : Option String) (x_init : String) :
    Except HErr Unit × Db :=
  match resolveIdentity botToken user_id user_sig x_init with
  | .error e => (.error e, db)
  | .ok user_id_final =>
      match db.events.find? fun e => e.id == event_id with
      | none => (.error ⟨404, "event not found"⟩, db)
      | some e =>
          if e.creator_user_id = none then (.error ⟨403, "not allowed"⟩, db)
          else
            match user_id_final with
            | none => (.error ⟨401, "Missing initData or user signature"⟩, db)
            | some uid =>
                if x_init = "" ∧ (user_sig.getD "") ≠ "" ∧
                    (user_sig.getD "") ≠ make_user_sig botToken e.chat_id uid then
                  (.error ⟨403, "bad user signature"⟩, db)
                else if e.creator_user_id ≠ some uid then
                  (.error ⟨403, "not allowed"⟩, db)
                else
                  (.ok (),
                    { db with
                      reminders := db.reminders.filter fun r =>
                        r.event_id != event_id,
                      votes :=
                        if e.poll_id ≠ "" then
                          db.votes.filter fun v => v.poll_id != e.poll_id
                        else db.votes,
                      events := db.events.filter fun e' => e'.id != event_id })

/-- Ordering of events by start instant (`ORDER BY e.dt_iso ASC`). -/
def eventLe (a b : EventRow) : Prop := a.dt ≤ b.dt

instance : DecidableRel eventLe :=
  fun a b => inferInstanceAs (Decidable (a.dt ≤ b.dt))

instance : IsTotal EventRow eventLe := ⟨fun a b => le_total a.dt b.dt⟩

instance : IsTrans EventRow eventLe := ⟨fun _ _ _ h h' => le_trans h h'⟩

/-- Deep link to the poll message, built for supergroup chat ids. -/
def build_poll_link (chat_id : Int) (poll_message_id : Nat) : Option String :=
  if (toString chat_id).startsWith "-100" then
    some ("https://t.me/c/" ++
      toString (((toString chat_id.natAbs).drop 3).toNat?.getD 0) ++
      "/" ++ toString poll_message_id)
  else none

/-- Item of the upcoming-events listing. -/
structure CalendarItem where
  id : Nat
  dt : Int
  title : String
  cost : String
  location : String
  details : String
  poll_link : Option String
  my_vote : Option String
deriving DecidableEq, Repr

/-- `api_calendar_upcoming` (`server.py` lines 353-439): requires a valid
chat-scope signature; identity is optional, but a supplied user signature is
verified here (mismatch is a 403) and a supplied launch context must verify;
the resolved id (or the `-1` sentinel) drives the `my_vote` annotation. -/
def api_calendar_upcoming (botToken : String) (db : Db) (chat_id : Int)
    (sig : String) (limit : Nat) (user_id : Option Int)
    (user_sig : Option String) (x_init : String) (now : Int) :
    Except HErr (List CalendarItem) :=
  if sig = "" ∨ sig ≠ make_chat_sig botToken chat_id then
    .error ⟨403, "bad signature"⟩
  else
    let ident : Except HErr (Option Int) :=
      if x_init ≠ "" then
        match telegram_webapp_verify_initdata botToken x_init with
        | .error e => .error e
        | .ok user =>
            match jsonGetId user with
            | none => .error ⟨500, "TypeError"⟩
            | some uid => .ok (some uid)
      else
        match user_id, user_sig with
        | some uid, some s =>
            if s ≠ "" then
              if s = make_user_sig botToken chat_id uid then .ok (some uid)
              else .error ⟨403, "bad user signature"⟩
            else .ok none
        | _, _ => .ok none
    match ident with
    | .error e => .error e
    | .ok uidOpt =>
        let user_id_param : Int := uidOpt.getD (-1)
        let rows := (db.events.filter fun e => e.chat_id == chat_id).insertionSort eventLe
        let items := rows.filterMap fun e =>
          if e.dt < now then none
          else
            let option_id : Option Int :=
              ((db.votes.find? fun v =>
                  v.poll_id == e.poll_id && v.user_id == user_id_param).map
                (fun v => v.option_id)).join
            let my_vote : Option String :=
              match option_id with
              | some 0 => some "yes"
              | some 1 => some "maybe"
              | some 2 => some "no"
              | _ => none
            some ⟨e.id, e.dt, e.title, e.cost, e.location, e.details,
              build_poll_link e.chat_id e.poll_message_id, my_vote⟩
        .ok (items.take limit)

/-! ## Helper lemmas about the reminder store -/

/-- Observable content of a reminder row apart from its surrogate id. -/
def remView (r : ReminderRow) : String × Int × Bool × Option Int :=
  (r.kind, r.run_at, r.sent, r.sent_at)

lemma filter_erase_event (l : List ReminderRow) (eid : Nat) :
    (l.filter fun r => r.event_id != eid).filter (fun r => r.event_id == eid) = [] := by
  induction l with
  | nil => rfl
  | cons h t ih =>
      by_cases hh : h.event_id = eid <;>
        simp [List.filter_cons, hh, ih]

lemma any_erase_event (l : List ReminderRow) (eid : Nat) (p : ReminderRow → Bool) :
    ((l.filter fun r => r.event_id != eid).any fun r => r.event_id == eid && p r) = false := by
  induction l with
  | nil => rfl
  | cons h t ih =>
      by_cases hh : h.event_id = eid <;>
        simp [List.filter_cons, hh, ih]

lemma filter_keep_other (l : List ReminderRow) (eid : Nat) :
    (l.filter fun r => r.event_id != eid).filter (fun r => !(r.event_id == eid)) =
      l.filter fun r => r.event_id != eid := by
  induction l with
  | nil => rfl
  | cons h t ih =>
      by_cases hh : h.event_id = eid <;>
        simp [List.filter_cons, hh, ih]

lemma filter_eq_and_ne (l : List ReminderRow) (eid : Nat) :
    l.filter (fun r => (r.event_id == eid) && (r.event_id != eid)) = [] := by
  induction l with
  | nil => rfl
  | cons h t ih =>
      by_cases hh : h.event_id = eid <;>
        simp [List.filter_cons, hh, ih]

lemma filter_not_and_ne (l : List ReminderRow) (eid : Nat) :
    l.filter (fun r => (!(r.event_id == eid)) && (r.event_id != eid)) =
      l.filter fun r => !(r.event_id == eid) := by
  induction l with
  | nil => rfl
  | cons h t ih =>
      by_cases hh : h.event_id = eid <;>
        simp [List.filter_cons, hh, ih]

lemma not_and_self_and (P Q : Prop) : (¬P ∧ (P ∧ Q)) ↔ False := by
  constructor
  · rintro ⟨hn, hp, -⟩; exact hn hp
  · intro h; exact h.elim

lemma insertReminderIgnore_fresh (db : Db) (eid : Nat) (kind : String)
    (run_at : Int)
    (h : (db.reminders.any fun r => r.event_id == eid && r.kind == kind) = false) :
    insertReminderIgnore db eid kind run_at =
      { db with
        reminders := db.reminders ++
          [⟨db.next_reminder_id, eid, kind, run_at, false, none⟩],
        next_reminder_id := db.next_reminder_id + 1 } := by
  unfold insertReminderIgnore
  rw [h]
  rfl

/-- Structural description of `create_or_replace_reminders`: the event's old
rows are removed and the surviving deadlines are appended with fresh ids. -/
lemma replace_reminders_structure (db : Db) (eid : Nat) (dt now : Int) :
    (create_or_replace_reminders db eid dt now).reminders =
      (db.reminders.filter fun r => r.event_id != eid) ++
      (if now < dt - 36 * 3600 then
        [⟨db.next_reminder_id, eid, REM_36H, dt - 36 * 3600, false, none⟩] else []) ++
      (if now < dt - 3 * 3600 then
        [⟨(if now < dt - 36 * 3600 then db.next_reminder_id + 1 else db.next_reminder_id),
          eid, REM_3H, dt - 3 * 3600, false, none⟩] else []) := by
  unfold create_or_replace_reminders
  by_cases h36 : now < dt - 129600 <;> by_cases h3 : now < dt - 10800 <;>
    simp [insertReminderIgnore, h36, h3, not_and_self_and, List.mem_append,
      REM_36H, REM_3H]

/-- Core characterization of `create_or_replace_reminders`: the event's
reminder rows afterwards are exactly the still-future members of the
long-lead / short-lead pair, fresh and unsent. -/
lemma replace_reminders_exact (db : Db) (eid : Nat) (dt now : Int) :
    ((create_or_replace_reminders db eid dt now).reminders.filter
        (fun r => r.event_id == eid)).map remView =
      (if now < dt - 36 * 3600 then [(REM_36H, dt - 36 * 3600, false, (none : Option Int))] else []) ++
      (if now < dt - 3 * 3600 then [(REM_3H, dt - 3 * 3600, false, (none : Option Int))] else []) := by
  rw [replace_reminders_structure]
  by_cases h36 : now < dt - 129600 <;> by_cases h3 : now < dt - 10800 <;>
    simp [h36, h3, List.filter_append, filter_eq_and_ne, filter_erase_event, remView]

/-- Rows of other events are untouched by `create_or_replace_reminders`. -/
lemma replace_reminders_other (db : Db) (eid : Nat) (dt now : Int) :
    (create_or_replace_reminders db eid dt now).reminders.filter
        (fun r => !(r.event_id == eid)) =
      db.reminders.filter fun r => !(r.event_id == eid) := by
  rw [replace_reminders_structure]
  have hsame : (db.reminders.filter fun r => r.event_id != eid) =
      db.reminders.filter fun r => !(r.event_id == eid) := by
    simp [bne]
  by_cases h36 : now < dt - 129600 <;> by_cases h3 : now < dt - 10800 <;>
    simp [h36, h3, List.filter_append, hsame, filter_keep_other, filter_not_and_ne]

/-- Every reminder row of the event after the operation fires strictly in
the future. -/
lemma replace_reminders_future (db : Db) (eid : Nat) (dt now : Int) :
    ∀ r ∈ (create_or_replace_reminders db eid dt now).reminders,
      r.event_id = eid → now < r.run_at := by
  intro r hr heq
  rw [replace_reminders_structure] at hr
  by_cases h36 : now < dt - 129600 <;> by_cases h3 : now < dt - 10800 <;>
    simp [h36, h3, heq] at hr
  · rcases hr with hr | hr <;> (subst hr; dsimp only; omega)
  · subst hr; dsimp only; omega
  · subst hr; dsimp only; omega

/-! ## Helper lemmas about due selection and marking -/

lemma due_mem_iff (db : Db) (now : Int) (r : ReminderRow) :
    r ∈ get_due_reminders db now ↔
      r ∈ db.reminders ∧ r.sent = false ∧ r.run_at ≤ now := by
  unfold get_due_reminders
  rw [List.mem_insertionSort]
  simp [List.mem_filter, and_assoc]

lemma due_sorted (db : Db) (now : Int) :
    List.Sorted remLe (get_due_reminders db now) :=
  List.sorted_insertionSort remLe _

lemma mark_sets_sent (db : Db) (i : Nat) (t : Int) :
    ∀ r ∈ (mark_reminder_sent db i t).reminders,
      r.id = i → r.sent = true ∧ r.sent_at = some t := by
  intro r hr hid
  unfold mark_reminder_sent at hr
  simp only [List.mem_map] at hr
  obtain ⟨s, hs, heq⟩ := hr
  by_cases h : s.id = i
  · subst heq; simp [h]
  · subst heq
    simp only [beq_iff_eq, h, if_false, ite_false] at hid ⊢

/-! ## The store operations that can run between scheduler cycles -/

/-- Every operation of the repository that writes the store: reminder
replacement (create and edit flows), marking a reminder sent (the worker),
the cascade delete (bot and gateway delete flows) and a poll answer. -/
inductive StoreOp where
  | replaceRem (event_id : Nat) (dt now : Int) : StoreOp
  | markSent (reminder_id : Nat) (now : Int) : StoreOp
  | deleteEventRows (event_id : Nat) (poll_id : String) : StoreOp
  | vote (poll_id : String) (user : TgUser) (option_ids : List Int) (now : Int) : StoreOp

/-- Effect of one store operation. -/
def applyOp (db : Db) : StoreOp → Db
  | .replaceRem eid dt now => create_or_replace_reminders db eid dt now
  | .markSent i now => mark_reminder_sent db i now
  | .deleteEventRows eid pid =>
      { db with
        reminders := db.reminders.filter fun r => r.event_id != eid,
        votes := db.votes.filter fun v => v.poll_id != pid,
        events := db.events.filter fun e => e.id != eid }
  | .vote p u os now => on_poll_answer db p u os now

/-- Effect of a sequence of store operations. -/
def applyOps (db : Db) (ops : List StoreOp) : Db := ops.foldl applyOp db

/-- Well-formedness delivered by `AUTOINCREMENT`: every reminder id is below
the next id to be handed out. -/
def ReminderIdsBounded (db : Db) : Prop :=
  ∀ r ∈ db.reminders, r.id < db.next_reminder_id

/-- After a successful mark: the id has been consumed and every row carrying
it is flagged sent. -/
def MarkedSent (db : Db) (i : Nat) : Prop :=
  i < db.next_reminder_id ∧ ∀ r ∈ db.reminders, r.id = i → r.sent = true

lemma insertReminderIgnore_spec (db : Db) (eid : Nat) (kind : String) (t : Int) :
    insertReminderIgnore db eid kind t = db ∨
      insertReminderIgnore db eid kind t =
        { db with
          reminders := db.reminders ++ [⟨db.next_reminder_id, eid, kind, t, false, none⟩],
          next_reminder_id := db.next_reminder_id + 1 } := by
  unfold insertReminderIgnore
  split
  · exact Or.inl rfl
  · exact Or.inr rfl

lemma marked_insert (db : Db) (i : Nat) (eid : Nat) (kind : String) (t : Int)
    (hm : MarkedSent db i) : MarkedSent (insertReminderIgnore db eid kind t) i := by
  rcases insertReminderIgnore_spec db eid kind t with h | h <;> rw [h]
  · exact hm
  · refine ⟨by have := hm.1; simp; omega, ?_⟩
    intro r hr hid
    simp only [List.mem_append, List.mem_singleton] at hr
    rcases hr with hr | hr
    · exact hm.2 r hr hid
    · subst hr
      exact absurd hid (by have := hm.1; simp; omega)

lemma marked_applyOp (db : Db) (i : Nat) (op : StoreOp)
    (hm : MarkedSent db i) : MarkedSent (applyOp db op) i := by
  cases op with
  | replaceRem eid dt now =>
      show MarkedSent (create_or_replace_reminders db eid dt now) i
      unfold create_or_replace_reminders
      have h1 : MarkedSent
          { db with reminders := db.reminders.filter fun r => r.event_id != eid } i := by
        refine ⟨hm.1, ?_⟩
        intro r hr hid
        exact hm.2 r (List.mem_of_mem_filter hr) hid
      by_cases h36 : now < dt - 36 * 3600 <;> by_cases h3 : now < dt - 3 * 3600 <;>
        simp only [h36, h3, if_true, if_false, ite_true, ite_false] <;>
        first
          | exact marked_insert _ _ _ _ _ (marked_insert _ _ _ _ _ h1)
          | exact marked_insert _ _ _ _ _ h1
          | exact h1
  | markSent j now =>
      show MarkedSent (mark_reminder_sent db j now) i
      refine ⟨hm.1, ?_⟩
      intro r hr hid
      unfold mark_reminder_sent at hr
      simp only [List.mem_map] at hr
      obtain ⟨s, hs, heq⟩ := hr
      by_cases h : s.id = j
      · subst heq; simp [h]
      · subst heq
        simp only [beq_iff_eq, h, if_false, ite_false] at hid ⊢
        exact hm.2 s hs hid
  | deleteEventRows eid pid =>
      refine ⟨hm.1, ?_⟩
      intro r hr hid
      exact hm.2 r (List.mem_of_mem_filter hr) hid
  | vote p u os now =>
      show MarkedSent (on_poll_answer db p u os now) i
      refine ⟨?_, ?_⟩
      · show i < (on_poll_answer db p u os now).next_reminder_id
        unfold on_poll_answer
        split <;> exact hm.1
      intro r hr hid
      unfold on_poll_answer at hr
      split at hr
      · exact hm.2 r hr hid
      · exact hm.2 r hr hid

lemma marked_applyOps (db : Db) (i : Nat) (ops : List StoreOp)
    (hm : MarkedSent db i) : MarkedSent (applyOps db ops) i := by
  induction ops generalizing db with
  | nil => exact hm
  | cons op rest ih => exact ih (applyOp db op) (marked_applyOp db i op hm)

lemma marked_after_mark (db : Db) (i : Nat) (t : Int)
    (hb : ReminderIdsBounded db) (hex : ∃ r ∈ db.reminders, r.id = i) :
    MarkedSent (mark_reminder_sent db i t) i := by
  obtain ⟨r, hr, hid⟩ := hex
  refine ⟨?_, ?_⟩
  · have := hb r hr
    show i < db.next_reminder_id
    omega
  · exact fun r' hr' hid' => (mark_sets_sent db i t r' hr' hid').1

lemma marked_not_due (db : Db) (i : Nat) (now : Int)
    (hm : MarkedSent db i) : ∀ r ∈ get_due_reminders db now, r.id ≠ i := by
  intro r hr hid
  rw [due_mem_iff] at hr
  have := hm.2 r hr.1 hid
  rw [hr.2.1] at this
  exact Bool.false_ne_true this

/-! ## Claim theorems: reminder selection and scheduling -/

/-- Concrete store used by witnesses and counterexamples: one event owning
one unsent short-lead reminder, one committed vote, one profile row. -/
def wdb : Db :=
  ⟨[⟨1, 5, "p1", 11, some 12, some 7, 200000, "t", "c", "l", "", 0⟩],
   [⟨"p1", 7, some 0, 10⟩],
   [⟨7, some "u", none, none, 10⟩],
   [⟨1, 1, "yes_3h", 100, false, none⟩],
   2⟩

/-- C3: `get_due_reminders` returns exactly the rows with `sent = false` and
fire-at `≤ now` (in particular never a sent row), ordered by fire-at
ascending; once `mark_reminder_sent` succeeds on an existing id the row is
flagged sent with a non-null sent-at, and no later cycle's due query — after
any sequence of store operations — re-selects that id. -/
theorem C3_no_double_dispatch (db : Db) (now t now' : Int) (i : Nat)
    (ops : List StoreOp) (hb : ReminderIdsBounded db)
    (hex : ∃ r ∈ db.reminders, r.id = i) :
    (∀ r ∈ get_due_reminders db now,
        r ∈ db.reminders ∧ r.sent = false ∧ r.run_at ≤ now)
    ∧ (∀ r ∈ db.reminders, r.sent = false → r.run_at ≤ now →
        r ∈ get_due_reminders db now)
    ∧ List.Sorted remLe (get_due_reminders db now)
    ∧ (∀ r ∈ (mark_reminder_sent db i t).reminders, r.id = i →
        r.sent = true ∧ r.sent_at = some t)
    ∧ (∀ r ∈ get_due_reminders (applyOps (mark_reminder_sent db i t) ops) now',
        r.id ≠ i) := by
  refine ⟨?_, ?_, due_sorted db now, mark_sets_sent db i t, ?_⟩
  · intro r hr
    exact (due_mem_iff db now r).1 hr
  · intro r hr h1 h2
    exact (due_mem_iff db now r).2 ⟨hr, h1, h2⟩
  · exact marked_not_due _ i now'
      (marked_applyOps _ i ops (marked_after_mark db i t hb hex))

/-- Witness for C3: concrete store, reminder id 1 marked, then the event is
edited (its reminders replaced); no later due query returns id 1. -/
theorem C3_no_double_dispatch_witness :
    ReminderIdsBounded wdb ∧ (∃ r ∈ wdb.reminders, r.id = 1) ∧
    List.Sorted remLe (get_due_reminders wdb 150) ∧
    (∀ r ∈ get_due_reminders
        (applyOps (mark_reminder_sent wdb 1 150)
          [StoreOp.replaceRem 1 500000 150]) 1000000000,
      r.id ≠ 1) :=
  ⟨by unfold ReminderIdsBounded; decide, by decide,
   (C3_no_double_dispatch wdb 150 150 1000000000 1
      [StoreOp.replaceRem 1 500000 150]
      (by unfold ReminderIdsBounded; decide) (by decide)).2.2.1,
   (C3_no_double_dispatch wdb 150 150 1000000000 1
      [StoreOp.replaceRem 1 500000 150]
      (by unfold ReminderIdsBounded; decide) (by decide)).2.2.2.2⟩

/-- C4: after `create_or_replace_reminders(E, t)` at time `now` the event's
reminder rows are exactly the members of the long-lead/short-lead pair whose
deadline is strictly later than `now`, inserted unsent, and every reminder
row of the event fires strictly in the future. -/
theorem C4_replace_reminders (db : Db) (eid : Nat) (dt now : Int) :
    (((create_or_replace_reminders db eid dt now).reminders.filter
        (fun r => r.event_id == eid)).map remView =
      (if now < dt - 36 * 3600 then
        [(REM_36H, dt - 36 * 3600, false, (none : Option Int))] else []) ++
      (if now < dt - 3 * 3600 then
        [(REM_3H, dt - 3 * 3600, false, (none : Option Int))] else []))
    ∧ (∀ r ∈ (create_or_replace_reminders db eid dt now).reminders,
        r.event_id = eid → now < r.run_at) :=
  ⟨replace_reminders_exact db eid dt now, replace_reminders_future db eid dt now⟩

/-- Witness for C4 at a concrete store (both deadlines still in the
future). -/
theorem C4_replace_reminders_witness :
    ((create_or_replace_reminders wdb 1 200000 100).reminders.filter
        (fun r => r.event_id == 1)).map remView =
      (if (100 : Int) < 200000 - 36 * 3600 then
        [(REM_36H, (200000 : Int) - 36 * 3600, false, (none : Option Int))] else []) ++
      (if (100 : Int) < 200000 - 3 * 3600 then
        [(REM_3H, (200000 : Int) - 3 * 3600, false, (none : Option Int))] else []) :=
  (C4_replace_reminders wdb 1 200000 100).1

/-- C5 counterexample: for an event starting two hours from now the code
schedules NO reminder at all — the short-lead deadline (start − 3h) already
lies in the past, so it is skipped exactly like the long-lead one — whereas
the claim promises the short-lead reminder alone is scheduled. -/
theorem C5_two_hour_cex :
    ((create_or_replace_reminders wdb 1 7200 0).reminders.filter
        (fun r => r.event_id == 1)) = [] ∧
    ¬ ∃ r ∈ (create_or_replace_reminders wdb 1 7200 0).reminders,
        r.kind = REM_3H := by
  decide

/-- C5 (amended): an event created with start `now+40h` gets exactly the two
reminders, long-lead at `now+4h` and short-lead at `now+37h`; an event
created with start `now+2h` gets no reminder (both deadlines, including the
short-lead one at `now-1h`, are already past). -/
theorem C5_schedule_scenarios (db : Db) (eid : Nat) (now : Int) :
    (((create_or_replace_reminders db eid (now + 144000) now).reminders.filter
        (fun r => r.event_id == eid)).map remView =
      [(REM_36H, now + 14400, false, (none : Option Int)),
       (REM_3H, now + 133200, false, (none : Option Int))])
    ∧ ((create_or_replace_reminders db eid (now + 7200) now).reminders.filter
        (fun r => r.event_id == eid)) = [] := by
  constructor
  · have h := replace_reminders_exact db eid (now + 144000) now
    rw [if_pos (by omega : now < now + 144000 - 36 * 3600),
        if_pos (by omega : now < now + 144000 - 3 * 3600)] at h
    have e1 : now + 144000 - 36 * 3600 = now + 14400 := by ring
    have e2 : now + 144000 - 3 * 3600 = now + 133200 := by ring
    rw [e1, e2] at h
    simpa using h
  · have h := replace_reminders_exact db eid (now + 7200) now
    rw [if_neg (by omega : ¬ now < now + 7200 - 36 * 3600),
        if_neg (by omega : ¬ now < now + 7200 - 3 * 3600)] at h
    simpa using h

/-! ## Vote-ledger lemmas (C7, C10) -/

/-- One `recordOpinion` invocation: poll, participant, chosen option
(`none` = retraction) and arrival time. -/
structure VoteCall where
  poll : String
  user : Int
  opt : Option Int
  time : Int
deriving DecidableEq, Repr

/-- Apply a sequence of upserts in arrival order. -/
def applyVoteCalls (votes : List VoteRow) (calls : List VoteCall) : List VoteRow :=
  calls.foldl (fun vs c => upsertVote vs c.poll c.user c.opt c.time) votes

/-- The rows stored under one `(poll, participant)` key. -/
def votesFor (votes : List VoteRow) (p : String) (u : Int) : List VoteRow :=
  votes.filter fun v => v.poll_id == p && v.user_id == u

/-- The `PRIMARY KEY (poll_id, user_id)` invariant. -/
def UniqueVoteKeys (votes : List VoteRow) : Prop :=
  List.Pairwise (fun a b => ¬(a.poll_id = b.poll_id ∧ a.user_id = b.user_id)) votes

/-- The last call of the sequence touching the given key, if any. -/
def lastCallFor (calls : List VoteCall) (p : String) (u : Int) : Option VoteCall :=
  calls.foldl (fun a c => if c.poll == p && c.user == u then some c else a) none

lemma votesFor_nil_of_no_key (vs : List VoteRow) (p : String) (u : Int)
    (h : ∀ v ∈ vs, ¬(v.poll_id = p ∧ v.user_id = u)) : votesFor vs p u = [] := by
  induction vs with
  | nil => rfl
  | cons v rest ih =>
      have hv := h v (List.mem_cons_self v rest)
      unfold votesFor
      rw [List.filter_cons]
      have : (v.poll_id == p && v.user_id == u) = false := by
        simp only [Bool.and_eq_false_iff, beq_eq_false_iff_ne, ne_eq]
        by_cases hp : v.poll_id = p
        · exact Or.inr fun hu => hv ⟨hp, hu⟩
        · exact Or.inl hp
      rw [this]
      simp only [Bool.false_eq_true, if_false, ite_false]
      exact ih fun w hw => h w (List.mem_cons_of_mem v hw)

lemma map_id_of_no_key (vs : List VoteRow) (p : String) (u : Int)
    (opt : Option Int) (t : Int)
    (h : ∀ v ∈ vs, ¬(v.poll_id = p ∧ v.user_id = u)) :
    (vs.map fun v =>
      if v.poll_id == p && v.user_id == u then
        { v with option_id := opt, updated_at := t } else v) = vs := by
  induction vs with
  | nil => rfl
  | cons v rest ih =>
      have hv := h v (List.mem_cons_self v rest)
      have hc : (v.poll_id == p && v.user_id == u) = false := by
        simp only [Bool.and_eq_false_iff, beq_eq_false_iff_ne, ne_eq]
        by_cases hp : v.poll_id = p
        · exact Or.inr fun hu => hv ⟨hp, hu⟩
        · exact Or.inl hp
      simp only [List.map_cons, hc, Bool.false_eq_true, if_false, ite_false,
        List.cons.injEq, true_and]
      exact ih fun w hw => h w (List.mem_cons_of_mem v hw)

lemma votesFor_map_update (vs : List VoteRow) (p : String) (u : Int)
    (opt : Option Int) (t : Int) (h : UniqueVoteKeys vs)
    (hex : (vs.any fun v => v.poll_id == p && v.user_id == u) = true) :
    votesFor (vs.map fun v =>
      if v.poll_id == p && v.user_id == u then
        { v with option_id := opt, updated_at := t } else v) p u =
      [⟨p, u, opt, t⟩] := by
  induction vs with
  | nil => exact absurd hex (by simp)
  | cons v rest ih =>
      by_cases hc : v.poll_id = p ∧ v.user_id = u
      · have hcb : (v.poll_id == p && v.user_id == u) = true := by
          simp [hc.1, hc.2]
        have hrest : ∀ w ∈ rest, ¬(w.poll_id = p ∧ w.user_id = u) := by
          intro w hw hwk
          exact (List.pairwise_cons.1 h).1 w hw
            ⟨hc.1.trans hwk.1.symm, hc.2.trans hwk.2.symm⟩
        unfold votesFor
        rw [List.map_cons, hcb, map_id_of_no_key rest p u opt t hrest]
        simp only [if_true, ite_true, List.filter_cons]
        have : (({ v with option_id := opt, updated_at := t } : VoteRow).poll_id == p &&
            ({ v with option_id := opt, updated_at := t } : VoteRow).user_id == u) = true := hcb
        rw [this]
        have hnil := votesFor_nil_of_no_key rest p u hrest
        unfold votesFor at hnil
        rw [hnil]
        simp [hc.1, hc.2]
      · have hcb : (v.poll_id == p && v.user_id == u) = false := by
          simp only [Bool.and_eq_false_iff, beq_eq_false_iff_ne, ne_eq]
          by_cases hp : v.poll_id = p
          · exact Or.inr fun hu => hc ⟨hp, hu⟩
          · exact Or.inl hp
        have hex' : (rest.any fun w => w.poll_id == p && w.user_id == u) = true := by
          rcases List.any_eq_true.1 hex with ⟨w, hw, hwk⟩
          rcases List.mem_cons.1 hw with hw | hw
          · subst hw; rw [hwk] at hcb; exact absurd hcb (by simp)
          · exact List.any_eq_true.2 ⟨w, hw, hwk⟩
        unfold votesFor
        rw [List.map_cons, hcb]
        simp only [Bool.false_eq_true, if_false, ite_false, List.filter_cons, hcb]
        exact ih (List.pairwise_cons.1 h).2 hex'

lemma votesFor_append_new (vs : List VoteRow) (p : String) (u : Int)
    (opt : Option Int) (t : Int)
    (hex : (vs.any fun v => v.poll_id == p && v.user_id == u) = false) :
    votesFor (vs ++ [⟨p, u, opt, t⟩]) p u = [⟨p, u, opt, t⟩] := by
  have hno : ∀ v ∈ vs, ¬(v.poll_id = p ∧ v.user_id = u) := by
    intro v hv hk
    have : (vs.any fun v => v.poll_id == p && v.user_id == u) = true :=
      List.any_eq_true.2 ⟨v, hv, by simp [hk.1, hk.2]⟩
    rw [this] at hex
    simp at hex
  unfold votesFor
  rw [List.filter_append]
  have h1 := votesFor_nil_of_no_key vs p u hno
  unfold votesFor at h1
  rw [h1]
  simp

lemma upsert_unique (vs : List VoteRow) (p : String) (u : Int)
    (opt : Option Int) (t : Int) (h : UniqueVoteKeys vs) :
    UniqueVoteKeys (upsertVote vs p u opt t) := by
  unfold upsertVote
  split
  · unfold UniqueVoteKeys
    rw [List.pairwise_map]
    refine h.imp_of_mem ?_
    intro a b _ _ hab hk
    apply hab
    constructor
    · by_cases ha : (a.poll_id == p && a.user_id == u) = true <;>
        by_cases hb : (b.poll_id == p && b.user_id == u) = true <;>
        simp only [ha, hb, if_true, if_false, ite_true, ite_false] at hk <;>
        exact hk.1
    · by_cases ha : (a.poll_id == p && a.user_id == u) = true <;>
        by_cases hb : (b.poll_id == p && b.user_id == u) = true <;>
        simp only [ha, hb, if_true, if_false, ite_true, ite_false] at hk <;>
        exact hk.2
  · rename_i hany
    unfold UniqueVoteKeys
    rw [List.pairwise_append]
    refine ⟨h, List.pairwise_singleton _ _, ?_⟩
    intro a ha b hb hk
    simp only [List.mem_singleton] at hb
    subst hb
    apply hany
    exact List.any_eq_true.2 ⟨a, ha, by simp [hk.1, hk.2]⟩

lemma votesFor_upsert_self (vs : List VoteRow) (p : String) (u : Int)
    (opt : Option Int) (t : Int) (h : UniqueVoteKeys vs) :
    votesFor (upsertVote vs p u opt t) p u = [⟨p, u, opt, t⟩] := by
  unfold upsertVote
  split
  · rename_i hany
    exact votesFor_map_update vs p u opt t h hany
  · rename_i hany
    exact votesFor_append_new vs p u opt t (by
      rcases hb : vs.any fun v => v.poll_id == p && v.user_id == u
      · rfl
      · exact absurd hb hany)

lemma key_false_of_ne (v : VoteRow) (q : String) (w : Int)
    (h : ¬(v.poll_id = q ∧ v.user_id = w)) :
    (v.poll_id == q && v.user_id == w) = false := by
  rcases hb : v.poll_id == q && v.user_id == w
  · rfl
  · simp only [Bool.and_eq_true, beq_iff_eq] at hb
    exact absurd hb h

lemma filter_other_map_update (vs : List VoteRow) (p q : String) (u w : Int)
    (opt : Option Int) (t : Int) (hk : ¬(q = p ∧ w = u)) :
    List.filter (fun v => v.poll_id == q && v.user_id == w)
      (vs.map fun v =>
        if v.poll_id == p && v.user_id == u then
          { v with option_id := opt, updated_at := t } else v) =
    List.filter (fun v => v.poll_id == q && v.user_id == w) vs := by
  induction vs with
  | nil => rfl
  | cons v rest ih =>
      rw [List.map_cons, List.filter_cons, List.filter_cons]
      by_cases hv : v.poll_id = p ∧ v.user_id = u
      · have hvb : (v.poll_id == p && v.user_id == u) = true := by
          simp [hv.1, hv.2]
        have hvq : (v.poll_id == q && v.user_id == w) = false :=
          key_false_of_ne v q w fun hqq =>
            hk ⟨hqq.1.symm.trans hv.1, hqq.2.symm.trans hv.2⟩
        simp only [hvb, hvq, eq_self_iff_true, if_true, ite_true,
          Bool.false_eq_true, if_false, ite_false]
        exact ih
      · have hvb : (v.poll_id == p && v.user_id == u) = false :=
          key_false_of_ne v p u hv
        simp only [hvb, Bool.false_eq_true, if_false, ite_false]
        by_cases hq : (v.poll_id == q && v.user_id == w) = true
        · rw [if_pos hq, if_pos hq, ih]
        · rw [if_neg hq, if_neg hq]
          exact ih

lemma votesFor_upsert_other (vs : List VoteRow) (p : String) (u : Int)
    (opt : Option Int) (t : Int) (q : String) (w : Int)
    (hk : ¬(q = p ∧ w = u)) :
    votesFor (upsertVote vs p u opt t) q w = votesFor vs q w := by
  unfold upsertVote votesFor
  split
  · exact filter_other_map_update vs p q u w opt t hk
  · rw [List.filter_append]
    have hnew : ((⟨p, u, opt, t⟩ : VoteRow).poll_id == q &&
        (⟨p, u, opt, t⟩ : VoteRow).user_id == w) = false := by
      apply key_false_of_ne
      exact fun hq => hk ⟨hq.1.symm, hq.2.symm⟩
    simp [List.filter_cons, hnew]

lemma foldl_lastCall_init (rest : List VoteCall) (p : String) (u : Int) :
    ∀ acc : Option VoteCall,
      rest.foldl (fun a c => if c.poll == p && c.user == u then some c else a) acc =
        match rest.foldl (fun a c => if c.poll == p && c.user == u then some c else a) none with
        | some c => some c
        | none => acc := by
  induction rest with
  | nil => intro acc; rfl
  | cons c rl ih =>
      intro acc
      by_cases hc : (c.poll == p && c.user == u) = true
      · rw [List.foldl_cons, List.foldl_cons, if_pos hc, if_pos hc, ih (some c)]
        cases hrec : rl.foldl
            (fun a c => if c.poll == p && c.user == u then some c else a) none <;>
          rfl
      · rw [List.foldl_cons, List.foldl_cons, if_neg hc, if_neg hc]
        exact ih acc

lemma lastCallFor_cons (c : VoteCall) (rest : List VoteCall) (p : String) (u : Int) :
    lastCallFor (c :: rest) p u =
      match lastCallFor rest p u with
      | some c' => some c'
      | none => if c.poll == p && c.user == u then some c else none := by
  unfold lastCallFor
  rw [List.foldl_cons]
  exact foldl_lastCall_init rest p u _

lemma applyVoteCalls_spec (calls : List VoteCall) :
    ∀ vs : List VoteRow, UniqueVoteKeys vs → ∀ (p : String) (u : Int),
      UniqueVoteKeys (applyVoteCalls vs calls) ∧
      votesFor (applyVoteCalls vs calls) p u =
        (match lastCallFor calls p u with
         | some c => [⟨p, u, c.opt, c.time⟩]
         | none => votesFor vs p u) := by
  induction calls with
  | nil => exact fun vs h p u => ⟨h, rfl⟩
  | cons c rest ih =>
      intro vs h p u
      have h' := upsert_unique vs c.poll c.user c.opt c.time h
      obtain ⟨hu, hv⟩ := ih (upsertVote vs c.poll c.user c.opt c.time) h' p u
      refine ⟨hu, ?_⟩
      show votesFor (applyVoteCalls (upsertVote vs c.poll c.user c.opt c.time) rest) p u = _
      rw [hv, lastCallFor_cons]
      cases hrec : lastCallFor rest p u with
      | some c' => rfl
      | none =>
          by_cases hc : c.poll = p ∧ c.user = u
          · have hcb : (c.poll == p && c.user == u) = true := by
              simp [hc.1, hc.2]
            rw [if_pos hcb, ← hc.1, ← hc.2]
            exact votesFor_upsert_self vs c.poll c.user c.opt c.time h
          · have hcb : (c.poll == p && c.user == u) = false := by
              rcases hb : c.poll == p && c.user == u
              · rfl
              · simp only [Bool.and_eq_true, beq_iff_eq] at hb
                exact absurd hb hc
            rw [if_neg (by rw [hcb]; exact fun hcon => Bool.noConfusion hcon)]
            exact votesFor_upsert_other vs c.poll c.user c.opt c.time p u
              fun hq => hc ⟨hq.1.symm, hq.2.symm⟩

lemma unique_votesFor_len (vs : List VoteRow) (h : UniqueVoteKeys vs)
    (p : String) (u : Int) : (votesFor vs p u).length ≤ 1 := by
  induction vs with
  | nil => simp [votesFor]
  | cons v rest ih =>
      unfold votesFor
      rw [List.filter_cons]
      by_cases hv : (v.poll_id == p && v.user_id == u) = true
      · rw [if_pos hv]
        simp only [Bool.and_eq_true, beq_iff_eq] at hv
        have hrest : ∀ w ∈ rest, ¬(w.poll_id = p ∧ w.user_id = u) := by
          intro w hw hwk
          exact (List.pairwise_cons.1 h).1 w hw
            ⟨hv.1.trans hwk.1.symm, hv.2.trans hwk.2.symm⟩
        have hnil := votesFor_nil_of_no_key rest p u hrest
        unfold votesFor at hnil
        rw [hnil]
        simp
      · rw [if_neg hv]
        exact ih (List.pairwise_cons.1 h).2

/-! ## Claim theorems: the vote ledger -/

/-- C7: starting from a store respecting the `(poll_id, user_id)` primary
key, any sequence of `recordOpinion` upserts preserves key uniqueness; the
rows stored under a key afterwards are exactly one row carrying the option
and timestamp of the most recently applied call for that key (a retraction
is an ordinary call with option `none`, stored — not deleted), or the
unchanged prior rows when no call touched the key; and every key holds at
most one row. -/
theorem C7_opinion_upsert (vs : List VoteRow) (calls : List VoteCall)
    (p : String) (u : Int) (h : UniqueVoteKeys vs) :
    UniqueVoteKeys (applyVoteCalls vs calls)
    ∧ (votesFor (applyVoteCalls vs calls) p u =
        match lastCallFor calls p u with
        | some c => [⟨p, u, c.opt, c.time⟩]
        | none => votesFor vs p u)
    ∧ (∀ (q : String) (w : Int), (votesFor (applyVoteCalls vs calls) q w).length ≤ 1) := by
  obtain ⟨hu, hv⟩ := applyVoteCalls_spec calls vs h p u
  exact ⟨hu, hv, fun q w => unique_votesFor_len _ hu q w⟩

/-- Witness for C7: a participant re-votes and then withdraws; exactly one
row remains, holding option `none` and the last timestamp. -/
theorem C7_opinion_upsert_witness :
    UniqueVoteKeys wdb.votes ∧
    votesFor (applyVoteCalls wdb.votes
        [⟨"p1", 7, some 2, 20⟩, ⟨"p1", 7, none, 30⟩]) "p1" 7 =
      [⟨"p1", 7, none, 30⟩] := by
  refine ⟨by unfold UniqueVoteKeys; decide, ?_⟩
  have h := (C7_opinion_upsert wdb.votes
    [⟨"p1", 7, some 2, 20⟩, ⟨"p1", 7, none, 30⟩] "p1" 7
    (by unfold UniqueVoteKeys; decide)).2.1
  rw [h]
  rfl

lemma mem_upsertVote (vs : List VoteRow) (p : String) (u : Int)
    (opt : Option Int) (t : Int) (v : VoteRow)
    (hv : v ∈ upsertVote vs p u opt t) : v ∈ vs ∨ v.poll_id = p := by
  unfold upsertVote at hv
  split at hv
  · rw [List.mem_map] at hv
    obtain ⟨w, hw, heq⟩ := hv
    by_cases hk : (w.poll_id == p && w.user_id == u) = true
    · right
      rw [if_pos hk] at heq
      subst heq
      simp only [Bool.and_eq_true, beq_iff_eq] at hk
      exact hk.1
    · left
      rw [if_neg hk] at heq
      subst heq
      exact hw
  · rw [List.mem_append] at hv
    rcases hv with hv | hv
    · exact Or.inl hv
    · right
      rw [List.mem_singleton] at hv
      subst hv
      rfl

/-- C10: a poll answer is applied only when an event with that poll id
exists — an unknown poll id leaves the store untouched — so a vote row was
only ever written while its poll's event existed. -/
theorem C10_vote_requires_event (db : Db) (p : String) (user : TgUser)
    (os : List Int) (now : Int) :
    ((¬ ∃ e ∈ db.events, e.poll_id = p) → on_poll_answer db p user os now = db)
    ∧ (∀ v ∈ (on_poll_answer db p user os now).votes, v ∉ db.votes →
        ∃ e ∈ db.events, e.poll_id = v.poll_id) := by
  constructor
  · intro h
    have hb : (db.events.any fun e => e.poll_id == p) = false := by
      rcases hany : db.events.any fun e => e.poll_id == p
      · rfl
      · exfalso
        rcases List.any_eq_true.1 hany with ⟨e, he, hpe⟩
        exact h ⟨e, he, by simpa using hpe⟩
    simp only [on_poll_answer, hb, Bool.false_eq_true, if_false, ite_false]
  · intro v hv hnv
    by_cases hany : (db.events.any fun e => e.poll_id == p) = true
    · have hv' : v ∈ upsertVote db.votes p user.id os.head? now := by
        simpa only [on_poll_answer, hany, if_true, ite_true] using hv
      rcases mem_upsertVote db.votes p user.id os.head? now v hv' with hmem | hpoll
      · exact absurd hmem hnv
      · rcases List.any_eq_true.1 hany with ⟨e, he, hpe⟩
        have hpe' : e.poll_id = p := by simpa using hpe
        exact ⟨e, he, hpe'.trans hpoll.symm⟩
    · have hb : (db.events.any fun e => e.poll_id == p) = false := by
        rcases hany2 : db.events.any fun e => e.poll_id == p
        · rfl
        · exact absurd hany2 hany
      have heq : on_poll_answer db p user os now = db := by
        simp only [on_poll_answer, hb, Bool.false_eq_true, if_false, ite_false]
      rw [heq] at hv
      exact absurd hv hnv

/-- Witness for C10: an answer for an unknown poll id leaves the store
unchanged. -/
theorem C10_vote_requires_event_witness :
    on_poll_answer wdb "nope" ⟨9, none, none, none⟩ [0] 50 = wdb :=
  (C10_vote_requires_event wdb "nope" ⟨9, none, none, none⟩ [0] 50).1 (by decide)

/-! ## Scheduler-cycle lemmas (C1) -/

/-- The reminder with id `i` still has a row, and every row with that id is
flagged sent. -/
def SentPred (d : Db) (i : Nat) : Prop :=
  (∃ r ∈ d.reminders, r.id = i) ∧ ∀ r ∈ d.reminders, r.id = i → r.sent = true

lemma mark_preserves_row (d : Db) (j : Nat) (t : Int) (i : Nat)
    (h : ∃ r ∈ d.reminders, r.id = i) :
    ∃ r ∈ (mark_reminder_sent d j t).reminders, r.id = i := by
  obtain ⟨r, hr, hid⟩ := h
  refine ⟨if (r.id == j) = true then
      { r with sent := true, sent_at := some t } else r,
    List.mem_map_of_mem _ hr, ?_⟩
  split
  · exact hid
  · exact hid

lemma sentPred_mark (d : Db) (j : Nat) (t : Int) (i : Nat) (h : SentPred d i) :
    SentPred (mark_reminder_sent d j t) i := by
  refine ⟨mark_preserves_row d j t i h.1, ?_⟩
  intro r hr hid
  unfold mark_reminder_sent at hr
  rw [List.mem_map] at hr
  obtain ⟨s, hs, heq⟩ := hr
  by_cases hj : (s.id == j) = true
  · rw [if_pos hj] at heq
    subst heq
    rfl
  · rw [if_neg hj] at heq
    subst heq
    exact h.2 s hs hid

lemma sentPred_after_mark (d : Db) (i : Nat) (t : Int)
    (h : ∃ r ∈ d.reminders, r.id = i) :
    SentPred (mark_reminder_sent d i t) i :=
  ⟨mark_preserves_row d i t i h, fun r hr hid => (mark_sets_sent d i t r hr hid).1⟩

lemma processOne_ok_eq (send : Int → Except Unit Unit) (now : Int) (d : Db)
    (r : ReminderRow) (d' : Db) (h : processOne send now d r = Except.ok d') :
    d' = mark_reminder_sent d r.id now := by
  unfold processOne at h
  cases hf : d.events.find? fun e => e.id == r.event_id with
  | none =>
      rw [hf] at h
      injection h with h'
      exact h'.symm
  | some e =>
      rw [hf] at h
      dsimp only at h
      split at h
      · exact absurd h (by simp)
      · injection h with h'
        exact h'.symm

lemma foldlM_transport (send : Int → Except Unit Unit) (now : Int)
    (l : List ReminderRow) :
    ∀ d d', List.foldlM (fun d r => processOne send now d r) d l = Except.ok d' →
      (∀ i, SentPred d i → SentPred d' i) ∧
      (∀ i, (∃ s ∈ d.reminders, s.id = i) → ∃ s ∈ d'.reminders, s.id = i) := by
  induction l with
  | nil =>
      intro d d' h
      have hdd : d = d' := by simpa [List.foldlM, pure, Except.pure] using h
      subst hdd
      exact ⟨fun i hi => hi, fun i hi => hi⟩
  | cons r tl ih =>
      intro d d' h
      rw [List.foldlM_cons] at h
      cases hp : processOne send now d r with
      | error u =>
          rw [hp] at h
          exact absurd h (by simp [Bind.bind, Except.bind])
      | ok d1 =>
          rw [hp] at h
          replace h : List.foldlM (fun d r => processOne send now d r) d1 tl =
            Except.ok d' := h
          have heq := processOne_ok_eq send now d r d1 hp
          subst heq
          obtain ⟨h1, h2⟩ := ih _ d' h
          exact ⟨fun i hi => h1 i (sentPred_mark d r.id now i hi),
                 fun i hi => h2 i (mark_preserves_row d r.id now i hi)⟩

lemma foldlM_marks_all (send : Int → Except Unit Unit) (now : Int)
    (l : List ReminderRow) :
    ∀ d d', (∀ r ∈ l, ∃ s ∈ d.reminders, s.id = r.id) →
      List.foldlM (fun d r => processOne send now d r) d l = Except.ok d' →
      ∀ r ∈ l, SentPred d' r.id := by
  induction l with
  | nil =>
      intro d d' _ _ r hr
      exact absurd hr (List.not_mem_nil r)
  | cons r tl ih =>
      intro d d' hrows h s hs
      rw [List.foldlM_cons] at h
      cases hp : processOne send now d r with
      | error u =>
          rw [hp] at h
          exact absurd h (by simp [Bind.bind, Except.bind])
      | ok d1 =>
          rw [hp] at h
          replace h : List.foldlM (fun d r => processOne send now d r) d1 tl =
            Except.ok d' := h
          have heq := processOne_ok_eq send now d r d1 hp
          subst heq
          rcases List.mem_cons.1 hs with hs | hs
          · subst hs
            have hex := hrows s (List.mem_cons_self s tl)
            have hsp := sentPred_after_mark d s.id now hex
            exact (foldlM_transport send now tl _ d' h).1 s.id hsp
          · refine ih _ d' ?_ h s hs
            intro w hw
            exact mark_preserves_row d r.id now w.id
              (hrows w (List.mem_cons_of_mem r hw))

lemma processOne_ok_of_send_ok (send : Int → Except Unit Unit)
    (hok : ∀ c, send c = Except.ok ()) (now : Int) (d : Db) (r : ReminderRow) :
    processOne send now d r = Except.ok (mark_reminder_sent d r.id now) := by
  unfold processOne
  cases hf : d.events.find? fun e => e.id == r.event_id with
  | none => rfl
  | some e =>
      have hatt : (if r.kind = REM_36H then
            (if get_users_by_choice d e.poll_id OPT_MAYBE ≠ [] then send e.chat_id
             else Except.ok ())
          else if r.kind = REM_3H then
            (if get_users_by_choice d e.poll_id OPT_YES ≠ [] then send e.chat_id
             else Except.ok ())
          else Except.ok ()) = Except.ok () := by
        split_ifs <;> first | exact hok _ | rfl
      dsimp only
      rw [hatt]

lemma foldlM_ok (send : Int → Except Unit Unit)
    (hok : ∀ c, send c = Except.ok ()) (now : Int) (l : List ReminderRow) :
    ∀ d, ∃ d', List.foldlM (fun d r => processOne send now d r) d l =
      Except.ok d' := by
  induction l with
  | nil => exact fun d => ⟨d, rfl⟩
  | cons r tl ih =>
      intro d
      rw [List.foldlM_cons, processOne_ok_of_send_ok send hok now d r]
      obtain ⟨d', hd⟩ := ih (mark_reminder_sent d r.id now)
      exact ⟨d', hd⟩

/-! ## Claim theorems: the scheduler cycle -/

/-- C1 counterexample: a concrete store with one due reminder whose event
exists and whose recipient set is non-empty, against a Notifier that throws.
The exception escapes the per-reminder code (the `try`/`except` of
`reminders_worker` wraps the whole cycle), `mark_reminder_sent` is never
reached, the transaction is rolled back, and after the cycle the reminder's
sent flag is still false — the claim promises it would be true. -/
theorem C1_throw_leaves_unsent_cex :
    (cycleBody (fun _ => Except.error ()) wdb 150).isOk = false ∧
    runCycle (fun _ => Except.error ()) wdb 150 = wdb ∧
    (get_due_reminders wdb 150).map (fun r => r.id) = [1] ∧
    wdb.reminders.map (fun r => r.sent) = [false] := by
  decide

/-- C1 (amended): when the cycle completes without a Notifier exception
(in particular whenever every dispatch succeeds) each due reminder ends the
cycle marked sent; but a throwing dispatch is caught at cycle scope — not
per reminder — which aborts the rest of the cycle and rolls back all of its
changes, leaving the store exactly as before (the loop logs and continues). -/
theorem C1_mark_on_success (db : Db) (now : Int)
    (send : Int → Except Unit Unit) :
    (∀ db', cycleBody send db now = Except.ok db' →
      ∀ r ∈ get_due_reminders db now, SentPred db' r.id)
    ∧ ((∀ c, send c = Except.ok ()) →
      ∃ db', cycleBody send db now = Except.ok db')
    ∧ (∀ u, cycleBody send db now = Except.error u →
      runCycle send db now = db) := by
  refine ⟨?_, fun hok => foldlM_ok send hok now (get_due_reminders db now) db, ?_⟩
  · intro db' h r hr
    refine foldlM_marks_all send now (get_due_reminders db now) db db' ?_ h r hr
    intro w hw
    exact ⟨w, ((due_mem_iff db now w).1 hw).1, rfl⟩
  · intro u h
    unfold runCycle
    rw [h]

/-- Witness for C1 (amended): with an always-succeeding Notifier the single
due reminder of the concrete store ends the cycle marked sent. -/
theorem C1_mark_on_success_witness :
    ((⟨1, 1, "yes_3h", 100, false, none⟩ : ReminderRow) ∈
      get_due_reminders wdb 150) ∧
    SentPred (runCycle (fun _ => Except.ok ()) wdb 150) 1 := by
  refine ⟨by decide, ?_⟩
  obtain ⟨db', hdb⟩ :=
    (C1_mark_on_success wdb 150 (fun _ => Except.ok ())).2.1 (fun _ => rfl)
  have hrc : runCycle (fun _ => Except.ok ()) wdb 150 = db' := by
    unfold runCycle
    rw [hdb]
  rw [hrc]
  exact (C1_mark_on_success wdb 150 (fun _ => Except.ok ())).1 db' hdb
    ⟨1, 1, "yes_3h", 100, false, none⟩ (by decide)

/-! ## Gateway handler lemmas (C2, C6, C9) -/

instance instDecEqExcept {ε α : Type} [DecidableEq ε] [DecidableEq α] :
    DecidableEq (Except ε α) := fun a b =>
  match a, b with
  | .ok x, .ok y =>
      if h : x = y then isTrue (by rw [h]) else isFalse (by simp [h])
  | .error x, .error y =>
      if h : x = y then isTrue (by rw [h]) else isFalse (by simp [h])
  | .ok _, .error _ => isFalse (by simp)
  | .error _, .ok _ => isFalse (by simp)

/-- Every path of `api_update_event` either rejects before any write,
returning the untouched store, or performs the single `UPDATE events` row
write after all the checks passed. -/
lemma api_update_event_cases (botToken : String) (db : Db) (eid : Nat)
    (patch : EventPatch) (user_id : Option Int) (user_sig : Option String)
    (x_init : String) :
    (∃ err, api_update_event botToken db eid patch user_id user_sig x_init =
      (Except.error err, db)) ∨
    (∃ e uid newDt,
      db.events.find? (fun e' => e'.id == eid) = some e ∧
      patch.dt = some newDt ∧
      e.creator_user_id = some uid ∧
      resolveIdentity botToken user_id user_sig x_init = Except.ok (some uid) ∧
      ¬(x_init = "" ∧ (user_sig.getD "") ≠ "" ∧
        (user_sig.getD "") ≠ make_user_sig botToken e.chat_id uid) ∧
      api_update_event botToken db eid patch user_id user_sig x_init =
        (Except.ok (),
          { db with
            events := db.events.map (fun e' =>
              if e'.id == eid then
                { e' with
                  dt := newDt
                  title := patch.title
                  cost := patch.cost
                  location := patch.location
                  details := patch.details.getD "" }
              else e') })) := by
  unfold api_update_event
  cases hri : resolveIdentity botToken user_id user_sig x_init with
  | error err => exact Or.inl ⟨err, rfl⟩
  | ok uidf =>
      cases hdt : patch.dt with
      | none => exact Or.inl ⟨_, rfl⟩
      | some newDt =>
          cases hfind : db.events.find? fun e' => e'.id == eid with
          | none => exact Or.inl ⟨_, rfl⟩
          | some e =>
              dsimp only
              by_cases hcr : e.creator_user_id = none
              · rw [if_pos hcr]
                exact Or.inl ⟨_, rfl⟩
              · rw [if_neg hcr]
                cases huid : uidf with
                | none => exact Or.inl ⟨_, rfl⟩
                | some uid =>
                    dsimp only
                    by_cases hsig : x_init = "" ∧ (user_sig.getD "") ≠ "" ∧
                        (user_sig.getD "") ≠ make_user_sig botToken e.chat_id uid
                    · rw [if_pos hsig]
                      exact Or.inl ⟨_, rfl⟩
                    · rw [if_neg hsig]
                      by_cases hown : e.creator_user_id ≠ some uid
                      · rw [if_pos hown]
                        exact Or.inl ⟨_, rfl⟩
                      · rw [if_neg hown]
                        rw [not_not] at hown
                        exact Or.inr ⟨e, uid, newDt, rfl, rfl, hown, rfl, hsig, rfl⟩

/-- The update handler never touches the `reminders` table. -/
lemma api_update_event_reminders (botToken : String) (db : Db) (eid : Nat)
    (patch : EventPatch) (user_id : Option Int) (user_sig : Option String)
    (x_init : String) :
    (api_update_event botToken db eid patch user_id user_sig x_init).2.reminders =
      db.reminders := by
  rcases api_update_event_cases botToken db eid patch user_id user_sig x_init with
    ⟨err, h⟩ | ⟨e, uid, newDt, _, _, _, _, _, h⟩ <;> rw [h]

/-! ## Claim theorems: edits and reminder recomputation (C6) -/

/-- Concrete store for the C6 counterexample: an owned event whose single
reminder was derived from the old start time. -/
def db6 : Db :=
  ⟨[⟨1, 10, "p6", 21, some 22, some 7, 1000000, "t", "c", "l", "", 0⟩],
   [], [],
   [⟨1, 1, "yes_3h", 989200, false, none⟩],
   2⟩

/-- C6 counterexample: an authorized Gateway update moves the start time
from 1000000 to 2000000 and succeeds, yet the stored reminder still fires at
989200 (derived from the old start) — the handler deleted and recreated
nothing, so the claim that the update operation recreates both reminders
from the new start time as one non-partial update is false. -/
theorem C6_gateway_update_cex :
    ((api_update_event "t" db6 1 ⟨some 2000000, "T", "C", "L", none⟩
        (some 7) (some (make_user_sig "t" 10 7)) "").1 = Except.ok ()) ∧
    ((api_update_event "t" db6 1 ⟨some 2000000, "T", "C", "L", none⟩
        (some 7) (some (make_user_sig "t" 10 7)) "").2.reminders =
      db6.reminders) ∧
    ((api_update_event "t" db6 1 ⟨some 2000000, "T", "C", "L", none⟩
        (some 7) (some (make_user_sig "t" 10 7)) "").2.events.map
      (fun e => e.dt) = [2000000]) ∧
    (db6.reminders.map (fun r => r.run_at) ≠ [2000000 - 3 * 3600]) := by
  decide

/-- C6 (amended): the Gateway update writes only the `events` row and leaves
the `reminders` table untouched; the reminders are recomputed only by the
separate bot-side `edited_via_api` step, which — once it runs — deletes and
recreates the event's reminders from the stored (new) start time, so only
after that second step do the stored reminders reflect the current start. -/
theorem C6_update_then_refresh (botToken : String) (db : Db) (eid : Nat)
    (patch : EventPatch) (user_id : Option Int) (user_sig : Option String)
    (x_init : String) (now : Int) :
    ((api_update_event botToken db eid patch user_id user_sig x_init).2.reminders =
      db.reminders)
    ∧ (∀ e, db.events.find? (fun e' => e'.id == eid) = some e →
        edited_via_api db eid now = create_or_replace_reminders db eid e.dt now)
    ∧ (∀ e, db.events.find? (fun e' => e'.id == eid) = some e →
        ((edited_via_api db eid now).reminders.filter
            (fun r => r.event_id == eid)).map remView =
          (if now < e.dt - 36 * 3600 then
            [(REM_36H, e.dt - 36 * 3600, false, (none : Option Int))] else []) ++
          (if now < e.dt - 3 * 3600 then
            [(REM_3H, e.dt - 3 * 3600, false, (none : Option Int))] else [])) := by
  refine ⟨api_update_event_reminders botToken db eid patch user_id user_sig x_init,
    ?_, ?_⟩
  · intro e hfind
    unfold edited_via_api
    rw [hfind]
  · intro e hfind
    have h1 : edited_via_api db eid now =
        create_or_replace_reminders db eid e.dt now := by
      unfold edited_via_api
      rw [hfind]
    rw [h1]
    exact replace_reminders_exact db eid e.dt now

/-- Witness for C6 at the counterexample store: running the bot-side refresh
after the update recreates the reminders from the stored start time. -/
theorem C6_update_then_refresh_witness :
    ((api_update_event "t" db6 1 ⟨some 2000000, "T", "C", "L", none⟩
        (some 7) (some (make_user_sig "t" 10 7)) "").2.reminders =
      db6.reminders) ∧
    (((edited_via_api db6 1 0).reminders.filter
        (fun r => r.event_id == 1)).map remView =
      (if (0 : Int) < 1000000 - 36 * 3600 then
        [(REM_36H, (1000000 : Int) - 36 * 3600, false, (none : Option Int))] else []) ++
      (if (0 : Int) < 1000000 - 3 * 3600 then
        [(REM_3H, (1000000 : Int) - 3 * 3600, false, (none : Option Int))] else [])) :=
  ⟨(C6_update_then_refresh "t" db6 1 ⟨some 2000000, "T", "C", "L", none⟩
      (some 7) (some (make_user_sig "t" 10 7)) "" 0).1,
   (C6_update_then_refresh "t" db6 1 ⟨some 2000000, "T", "C", "L", none⟩
      (some 7) (some (make_user_sig "t" 10 7)) "" 0).2.2
     ⟨1, 10, "p6", 21, some 22, some 7, 1000000, "t", "c", "l", "", 0⟩
     (by decide)⟩

/-- Every path of `api_delete_event` either rejects before any write,
returning the untouched store, or performs the cascade delete after all the
checks passed. -/
lemma api_delete_event_cases (botToken : String) (db : Db) (eid : Nat)
    (user_id : Option Int) (user_sig : Option String) (x_init : String) :
    (∃ err, api_delete_event botToken db eid user_id user_sig x_init =
      (Except.error err, db)) ∨
    (∃ e uid,
      db.events.find? (fun e' => e'.id == eid) = some e ∧
      e.creator_user_id = some uid ∧
      resolveIdentity botToken user_id user_sig x_init = Except.ok (some uid) ∧
      ¬(x_init = "" ∧ (user_sig.getD "") ≠ "" ∧
        (user_sig.getD "") ≠ make_user_sig botToken e.chat_id uid) ∧
      api_delete_event botToken db eid user_id user_sig x_init =
        (Except.ok (),
          { db with
            reminders := db.reminders.filter (fun r => r.event_id != eid)
            votes :=
              if e.poll_id ≠ "" then
                db.votes.filter (fun v => v.poll_id != e.poll_id)
              else db.votes
            events := db.events.filter (fun e' => e'.id != eid) })) := by
  unfold api_delete_event
  cases hri : resolveIdentity botToken user_id user_sig x_init with
  | error err => exact Or.inl ⟨err, rfl⟩
  | ok uidf =>
      cases hfind : db.events.find? fun e' => e'.id == eid with
      | none => exact Or.inl ⟨_, rfl⟩
      | some e =>
          dsimp only
          by_cases hcr : e.creator_user_id = none
          · rw [if_pos hcr]
            exact Or.inl ⟨_, rfl⟩
          · rw [if_neg hcr]
            cases huid : uidf with
            | none => exact Or.inl ⟨_, rfl⟩
            | some uid =>
                dsimp only
                by_cases hsig : x_init = "" ∧ (user_sig.getD "") ≠ "" ∧
                    (user_sig.getD "") ≠ make_user_sig botToken e.chat_id uid
                · rw [if_pos hsig]
                  exact Or.inl ⟨_, rfl⟩
                · rw [if_neg hsig]
                  by_cases hown : e.creator_user_id ≠ some uid
                  · rw [if_pos hown]
                    exact Or.inl ⟨_, rfl⟩
                  · rw [if_neg hown]
                    rw [not_not] at hown
                    exact Or.inr ⟨e, uid, rfl, hown, rfl, hsig, rfl⟩

/-! ## Claim theorems: mutation ownership (C9) -/

/-- Concrete store for the C9 counterexample: a legacy event whose
`creator_user_id` is NULL. -/
def dbL : Db :=
  ⟨[⟨1, 5, "pL", 31, none, none, 200000, "t", "c", "l", "", 0⟩],
   [⟨"pL", 7, some 0, 10⟩], [],
   [⟨1, 1, "yes_3h", 100, false, none⟩],
   2⟩

/-- C9 counterexample: the bot-side delete flow lets an arbitrary actor
(id 999) delete an event whose stored creator id is absent — the rows are
removed and the success message returned — contradicting the claim that a
creator-less event rejects every mutation requester. -/
theorem C9_legacy_bot_delete_cex :
    (delete_event dbL 1 999).1 = "Удалено ✅" ∧
    (delete_event dbL 1 999).2.events = [] ∧
    (delete_event dbL 1 999).2.votes = [] ∧
    (delete_event dbL 1 999).2.reminders = [] ∧
    dbL.events.map (fun e => e.creator_user_id) = [none] := by
  decide

/-- C9 (amended): the Gateway handlers permit a mutation only when the
event's stored creator id equals the authenticated id (and, on the
query-parameter path, the supplied signature matches the event's chat), and
they reject events with an absent creator id for every requester, leaving
the store untouched on every rejection; the bot-side delete flow, however,
rejects only a recorded non-matching creator — an event with no recorded
creator is deleted by any actor. -/
theorem C9_ownership_checks (botToken : String) (db : Db) (eid : Nat)
    (patch : EventPatch) (user_id : Option Int) (user_sig : Option String)
    (x_init : String) (actor : Int) :
    ((api_update_event botToken db eid patch user_id user_sig x_init).1 =
        Except.ok () →
      ∃ e uid, db.events.find? (fun e' => e'.id == eid) = some e ∧
        e.creator_user_id = some uid ∧
        resolveIdentity botToken user_id user_sig x_init = Except.ok (some uid) ∧
        (x_init = "" → (user_sig.getD "") ≠ "" →
          (user_sig.getD "") = make_user_sig botToken e.chat_id uid))
    ∧ ((api_delete_event botToken db eid user_id user_sig x_init).1 =
        Except.ok () →
      ∃ e uid, db.events.find? (fun e' => e'.id == eid) = some e ∧
        e.creator_user_id = some uid ∧
        resolveIdentity botToken user_id user_sig x_init = Except.ok (some uid) ∧
        (x_init = "" → (user_sig.getD "") ≠ "" →
          (user_sig.getD "") = make_user_sig botToken e.chat_id uid))
    ∧ (∀ e, db.events.find? (fun e' => e'.id == eid) = some e →
        e.creator_user_id = none →
        (∃ err, api_update_event botToken db eid patch user_id user_sig x_init =
          (Except.error err, db)) ∧
        (∃ err, api_delete_event botToken db eid user_id user_sig x_init =
          (Except.error err, db)))
    ∧ ((api_update_event botToken db eid patch user_id user_sig x_init).1.isOk =
        false → (api_update_event botToken db eid patch user_id user_sig
          x_init).2 = db)
    ∧ ((api_delete_event botToken db eid user_id user_sig x_init).1.isOk =
        false → (api_delete_event botToken db eid user_id user_sig
          x_init).2 = db)
    ∧ (∀ e c, db.events.find? (fun e' => e'.id == eid) = some e →
        e.creator_user_id = some c → c ≠ actor →
        delete_event db eid actor =
          ("Удалить может только создатель события.", db))
    ∧ (∀ e, db.events.find? (fun e' => e'.id == eid) = some e →
        e.creator_user_id = none →
        (delete_event db eid actor).1 = "Удалено ✅") := by
  refine ⟨?_, ?_, ?_, ?_, ?_, ?_, ?_⟩
  · intro hok
    rcases api_update_event_cases botToken db eid patch user_id user_sig x_init with
      ⟨err, h⟩ | ⟨e, uid, newDt, hfind, _, hcr, hri, hsig, h⟩
    · rw [h] at hok
      exact absurd hok (by simp)
    · refine ⟨e, uid, hfind, hcr, hri, ?_⟩
      intro hx hne
      by_contra hmm
      exact hsig ⟨hx, hne, hmm⟩
  · intro hok
    rcases api_delete_event_cases botToken db eid user_id user_sig x_init with
      ⟨err, h⟩ | ⟨e, uid, hfind, hcr, hri, hsig, h⟩
    · rw [h] at hok
      exact absurd hok (by simp)
    · refine ⟨e, uid, hfind, hcr, hri, ?_⟩
      intro hx hne
      by_contra hmm
      exact hsig ⟨hx, hne, hmm⟩
  · intro e hfind hnone
    constructor
    · rcases api_update_event_cases botToken db eid patch user_id user_sig x_init with
        ⟨err, h⟩ | ⟨e', uid, newDt, hfind', _, hcr, _, _, _⟩
      · exact ⟨err, h⟩
      · rw [hfind] at hfind'
        injection hfind' with he
        subst he
        rw [hnone] at hcr
        exact absurd hcr (by simp)
    · rcases api_delete_event_cases botToken db eid user_id user_sig x_init with
        ⟨err, h⟩ | ⟨e', uid, hfind', hcr, _, _, _⟩
      · exact ⟨err, h⟩
      · rw [hfind] at hfind'
        injection hfind' with he
        subst he
        rw [hnone] at hcr
        exact absurd hcr (by simp)
  · intro hnok
    rcases api_update_event_cases botToken db eid patch user_id user_sig x_init with
      ⟨err, h⟩ | ⟨e, uid, newDt, _, _, _, _, _, h⟩
    · rw [h]
    · rw [h] at hnok
      exact absurd hnok (fun hh => Bool.noConfusion hh)
  · intro hnok
    rcases api_delete_event_cases botToken db eid user_id user_sig x_init with
      ⟨err, h⟩ | ⟨e, uid, _, _, _, _, h⟩
    · rw [h]
    · rw [h] at hnok
      exact absurd hnok (fun hh => Bool.noConfusion hh)
  · intro e c hfind hc hne
    unfold delete_event
    rw [hfind]
    dsimp only
    rw [if_pos (by rw [hc]; simpa using hne)]
  · intro e hfind hnone
    unfold delete_event
    rw [hfind]
    dsimp only
    rw [if_neg (by rw [hnone]; simp)]

/-- Witness for C9 (amended): at a concrete owned event, a correctly signed
delete by the creator succeeds so the ok-implication is exercised, and a
differently-owned delete through the bot flow is rejected. -/
theorem C9_ownership_checks_witness :
    ((api_delete_event "t" wdb 1 (some 7) (some (make_user_sig "t" 5 7)) "").1 =
        Except.ok () →
      ∃ e uid, wdb.events.find? (fun e' => e'.id == 1) = some e ∧
        e.creator_user_id = some uid ∧
        resolveIdentity "t" (some 7) (some (make_user_sig "t" 5 7)) "" =
          Except.ok (some uid) ∧
        ("" = "" → ((some (make_user_sig "t" 5 7)).getD "") ≠ "" →
          ((some (make_user_sig "t" 5 7)).getD "") =
            make_user_sig "t" e.chat_id uid)) ∧
    delete_event wdb 1 999 =
      ("Удалить может только создатель события.", wdb) :=
  ⟨(C9_ownership_checks "t" wdb 1 ⟨some 0, "", "", "", none⟩ (some 7)
      (some (make_user_sig "t" 5 7)) "" 999).2.1,
   (C9_ownership_checks "t" wdb 1 ⟨some 0, "", "", "", none⟩ (some 7)
      (some (make_user_sig "t" 5 7)) "" 999).2.2.2.2.2.1
     ⟨1, 5, "p1", 11, some 12, some 7, 200000, "t", "c", "l", "", 0⟩ 7
     (by decide) (by decide) (by decide)⟩

/-! ## Read-path lemmas (C2) -/

lemma upcoming_my_vote_none (botToken : String) (db : Db) (chat_id : Int)
    (sig : String) (limit : Nat) (user_id : Option Int)
    (user_sig : Option String) (now : Int) (items : List CalendarItem)
    (hid : user_id = none ∨ user_sig = none ∨ user_sig = some "")
    (hv : ∀ v ∈ db.votes, 0 < v.user_id)
    (h : api_calendar_upcoming botToken db chat_id sig limit user_id user_sig
      "" now = Except.ok items) :
    ∀ it ∈ items, it.my_vote = none := by
  unfold api_calendar_upcoming at h
  split at h
  · exact absurd h (by simp)
  · rw [if_neg (by simp : ¬(("" : String) ≠ ""))] at h
    have hident : (match user_id, user_sig with
        | some uid, some s =>
            if s ≠ "" then
              if s = make_user_sig botToken chat_id uid then
                Except.ok (some uid)
              else Except.error (⟨403, "bad user signature"⟩ : HErr)
            else Except.ok none
        | _, _ => Except.ok (none : Option Int)) = Except.ok (none : Option Int) := by
      rcases hid with hid | hid | hid
      · subst hid
        rfl
      · subst hid
        cases user_id <;> rfl
      · subst hid
        cases user_id <;> simp
    rw [hident] at h
    try dsimp only at h
    injection h with hitems
    intro it hit
    rw [← hitems] at hit
    have hit' := List.mem_of_mem_take hit
    rw [List.mem_filterMap] at hit'
    obtain ⟨e, he, hfe⟩ := hit'
    by_cases hpast : e.dt < now
    · rw [if_pos hpast] at hfe
      exact absurd hfe (by simp)
    · rw [if_neg hpast] at hfe
      have hfind : db.votes.find? (fun v =>
          v.poll_id == e.poll_id && v.user_id == (none : Option Int).getD (-1)) =
          none := by
        rw [List.find?_eq_none]
        intro v hvmem
        have := hv v hvmem
        simp only [Option.getD, Bool.and_eq_true, beq_iff_eq, not_and]
        intro _
        omega
      rw [hfind] at hfe
      try dsimp only at hfe
      injection hfe with hfe'
      rw [← hfe']
      rfl

lemma upcoming_bad_user_sig (botToken : String) (db : Db) (chat_id : Int)
    (sig : String) (limit : Nat) (u : Int) (s : String) (now : Int)
    (hs : s ≠ "") (hmm : s ≠ make_user_sig botToken chat_id u) :
    ∃ err, api_calendar_upcoming botToken db chat_id sig limit (some u)
      (some s) "" now = Except.error err ∧ err.code = 403 := by
  unfold api_calendar_upcoming
  split
  · exact ⟨_, rfl, rfl⟩
  · dsimp only
    rw [if_neg (by simp : ¬(("" : String) ≠ "")), if_pos hs, if_neg hmm]
    exact ⟨_, rfl, rfl⟩

/-! ## Claim theorems: the read paths (C2) -/

/-- C2 counterexample: `GET /api/event/{id}` declares no signature (and no
identity) parameter at all — the embedded handler takes only the event id —
so a request carrying no chat-scope signature succeeds whenever the event
exists, refuting the claim that every read-path request succeeds only with a
valid chat-scope signature. -/
theorem C2_get_event_no_sig_cex :
    api_get_event wdb 1 = Except.ok ⟨1, 5, 200000, "t", "c", "l", ""⟩ := by
  decide

/-- C2 (amended): the get-single-event endpoint performs no signature check
whatsoever and returns the event to any caller; the upcoming-events listing
does require a valid chat-scope signature — any other value is rejected with
403, whether or not a launch context accompanies the request; user identity
there is optional — when it is absent the per-user opinion annotation is
null — but a supplied-and-unverifiable identity is rejected rather than
degraded to a null annotation: an invalid user signature with 403, and a
launch context that fails verification with the verifier's own error (401
for a mismatched, missing or malformed payload), which propagates instead
of any listing being returned. -/
theorem C2_read_paths (botToken : String) (db : Db) (eid : Nat) (e : EventRow)
    (chat_id : Int) (sig : String) (limit : Nat) (user_id : Option Int)
    (user_sig : Option String) (x_init : String) (now : Int) :
    (db.events.find? (fun e' => e'.id == eid) = some e →
      api_get_event db eid =
        Except.ok ⟨e.id, e.chat_id, e.dt, e.title, e.cost, e.location, e.details⟩)
    ∧ (sig ≠ make_chat_sig botToken chat_id →
        api_calendar_upcoming botToken db chat_id sig limit user_id user_sig
          x_init now = Except.error ⟨403, "bad signature"⟩)
    ∧ ((user_id = none ∨ user_sig = none ∨ user_sig = some "") →
        (∀ v ∈ db.votes, 0 < v.user_id) →
        ∀ items, api_calendar_upcoming botToken db chat_id sig limit user_id
            user_sig "" now = Except.ok items →
          ∀ it ∈ items, it.my_vote = none)
    ∧ (∀ (u : Int) (s : String), s ≠ "" → s ≠ make_user_sig botToken chat_id u →
        ∃ err, api_calendar_upcoming botToken db chat_id sig limit (some u)
          (some s) "" now = Except.error err ∧ err.code = 403)
    ∧ (∀ err, x_init ≠ "" →
        telegram_webapp_verify_initdata botToken x_init = Except.error err →
        api_calendar_upcoming botToken db chat_id sig limit user_id user_sig
            x_init now = Except.error ⟨403, "bad signature"⟩ ∨
        api_calendar_upcoming botToken db chat_id sig limit user_id user_sig
            x_init now = Except.error err) := by
  refine ⟨?_, ?_, ?_, ?_, ?_⟩
  · intro hfind
    unfold api_get_event
    rw [hfind]
  · intro hsig
    unfold api_calendar_upcoming
    rw [if_pos (Or.inr hsig)]
  · intro hid hv items h
    exact upcoming_my_vote_none botToken db chat_id sig limit user_id user_sig
      now items hid hv h
  · intro u s hs hmm
    exact upcoming_bad_user_sig botToken db chat_id sig limit u s now hs hmm
  · intro err hx hverr
    by_cases hc : sig = "" ∨ sig ≠ make_chat_sig botToken chat_id
    · left
      unfold api_calendar_upcoming
      rw [if_pos hc]
    · right
      unfold api_calendar_upcoming
      rw [if_neg hc, if_pos hx, hverr]

/-- Witness for C2 (amended) at the concrete store: the unauthenticated
get succeeds, a wrong chat signature is rejected even when a launch context
is supplied, the anonymous listing annotates no vote, and a malformed launch
context makes the listing fail with the verifier's 401 rather than return
items. -/
theorem C2_read_paths_witness :
    (api_get_event wdb 1 =
      Except.ok ⟨1, 5, 200000, "t", "c", "l", ""⟩) ∧
    (api_calendar_upcoming "t" wdb 5 "x" 50 none none "garbage" 0 =
      Except.error ⟨403, "bad signature"⟩) ∧
    ((⟨1, 200000, "t", "c", "l", "", none, none⟩ : CalendarItem).my_vote =
      none) ∧
    (api_calendar_upcoming "t" wdb 5 (make_chat_sig "t" 5) 50 none none
        "garbage" 0 = Except.error ⟨403, "bad signature"⟩ ∨
      api_calendar_upcoming "t" wdb 5 (make_chat_sig "t" 5) 50 none none
        "garbage" 0 = Except.error ⟨401, "Bad initData format"⟩) :=
  ⟨(C2_read_paths "t" wdb 1 ⟨1, 5, "p1", 11, some 12, some 7, 200000,
      "t", "c", "l", "", 0⟩ 5 "x" 50 none none "garbage" 0).1 (by decide),
   (C2_read_paths "t" wdb 1 ⟨1, 5, "p1", 11, some 12, some 7, 200000,
      "t", "c", "l", "", 0⟩ 5 "x" 50 none none "garbage" 0).2.1 (by decide),
   (C2_read_paths "t" wdb 1 ⟨1, 5, "p1", 11, some 12, some 7, 200000,
      "t", "c", "l", "", 0⟩ 5 (make_chat_sig "t" 5) 50 none none "" 0).2.2.1
     (Or.inl rfl) (by decide)
     [⟨1, 200000, "t", "c", "l", "", none, none⟩] (by decide)
     ⟨1, 200000, "t", "c", "l", "", none, none⟩ (by decide),
   (C2_read_paths "t" wdb 1 ⟨1, 5, "p1", 11, some 12, some 7, 200000,
      "t", "c", "l", "", 0⟩ 5 (make_chat_sig "t" 5) 50 none none "garbage"
      0).2.2.2.2 ⟨401, "Bad initData format"⟩ (by decide) (by rfl)⟩

/-! ## Claim theorems: the launch-context verifier (C8) -/

/-- The acceptance predicate exactly as the claim words it (refinement
comparison definition, not from the source): the recomputed HMAC is taken
over the sorted, AMPERSAND-joined `k=v` pairs of the payload excluding the
signature field. -/
def initdata_accept_claim (botToken init_data : String) : Bool :=
  if init_data = "" then false
  else
    match parse_qsl init_data with
    | none => false
    | some pairs =>
        match qsFirst pairs "hash" with
        | none => false
        | some received_hash =>
            let secret_key := hmacSha256 (strBytes "WebAppData") (strBytes botToken)
            let computed_hash := bytesToHex (hmacSha256 secret_key (strBytes
              (String.intercalate "&"
                (((qsSortedKeys pairs).filter fun k => k ≠ "hash").map
                  fun k => k ++ "=" ++ (qsFirst pairs k).getD ""))))
            if computed_hash = received_hash then
              match qsFirst pairs "user" with
              | none => false
              | some user_json =>
                  if user_json = "" then false
                  else
                    match jsonParse user_json with
                    | none => false
                    | some user =>
                        match jsonHasId user with
                        | none => false
                        | some false => false
                        | some true => true
            else false

/-- The acceptance predicate of the amended claim: identical to the claim's
wording except that the data-check pairs are NEWLINE-joined (the
`"\n".join(pairs)` of the source). -/
def initdata_accept_amended (botToken init_data : String) : Bool :=
  if init_data = "" then false
  else
    match parse_qsl init_data with
    | none => false
    | some pairs =>
        match qsFirst pairs "hash" with
        | none => false
        | some received_hash =>
            let secret_key := hmacSha256 (strBytes "WebAppData") (strBytes botToken)
            let computed_hash :=
              bytesToHex (hmacSha256 secret_key (strBytes (dataCheckString pairs)))
            if computed_hash = received_hash then
              match qsFirst pairs "user" with
              | none => false
              | some user_json =>
                  if user_json = "" then false
                  else
                    match jsonParse user_json with
                    | none => false
                    | some user =>
                        match jsonHasId user with
                        | none => false
                        | some false => false
                        | some true => true
            else false

/-- The hash field of the counterexample payload: the genuine HMAC-SHA256 of
the NEWLINE-joined data-check string for bot token `"t"`. -/
def cexHash : String :=
  bytesToHex (hmacSha256 (hmacSha256 (strBytes "WebAppData") (strBytes "t"))
    (strBytes ("a=1\nuser=\x7b\"id\":5\x7d")))

/-- The counterexample payload: two data fields plus the signature. -/
def cexInitData : String :=
  "a=1&user=\x7b\"id\":5\x7d&hash=" ++ cexHash

/-- C8 counterexample: the verifier ACCEPTS this payload (its hash is the
HMAC over the newline-joined pairs, which is what the source recomputes),
while the claim's acceptance condition — equality with the HMAC over the
'&'-joined pairs — evaluates to false on it: the claim mischaracterizes the
accepted set. -/
theorem C8_amp_join_cex :
    (telegram_webapp_verify_initdata "t" cexInitData).isOk = true ∧
    initdata_accept_claim "t" cexInitData = false := by
  decide

/-- C8 (amended): the verifier accepts a payload exactly when the payload
parses strictly, carries a `hash` field, the HMAC — keyed by
`HMAC("WebAppData", botToken)` — over the sorted, NEWLINE-joined `k=v`
pairs excluding the signature field equals that field, and a JSON `user`
object carrying an id is present; every mismatch, missing signature or
malformed payload is rejected before the embedded user id is trusted. -/
theorem C8_initdata_verifier (botToken init_data : String) :
    (telegram_webapp_verify_initdata botToken init_data).isOk =
      initdata_accept_amended botToken init_data := by
  unfold telegram_webapp_verify_initdata initdata_accept_amended
  by_cases h0 : init_data = ""
  · rw [if_pos h0, if_pos h0]
    rfl
  · rw [if_neg h0, if_neg h0]
    cases parse_qsl init_data with
    | none => rfl
    | some pairs =>
        dsimp only
        cases qsFirst pairs "hash" with
        | none => rfl
        | some received =>
            dsimp only
            by_cases hh : bytesToHex (hmacSha256
                (hmacSha256 (strBytes "WebAppData") (strBytes botToken))
                (strBytes (dataCheckString pairs))) = received
            · rw [if_pos hh, if_pos hh]
              cases qsFirst pairs "user" with
              | none => rfl
              | some uj =>
                  dsimp only
                  by_cases hu : uj = ""
                  · rw [if_pos hu, if_pos hu]
                    rfl
                  · rw [if_neg hu, if_neg hu]
                    cases jsonParse uj with
                    | none => rfl
                    | some user =>
                        dsimp only
                        cases jsonHasId user with
                        | none => rfl
                        | some b => cases b <;> rfl
            · rw [if_neg hh, if_neg hh]
              rfl

end QuizCal
